import Mathlib

/-!
Verification development for the RCA multi-agent pipeline
(`rca-full-async/rca_multi_agent.py`).

The Python code is shallowly embedded: Python/JSON values become the
inductive type `Val`, dictionaries become ordered association lists with
Python-style first-occurrence lookup and in-place update, and Python
floats become exact rationals (`ℚ`).  Fallible conversions return
`Option`.  Each embedded function keeps the name of its Python source
function where Lean allows it.
-/

set_option maxHeartbeats 1000000

namespace RCA

/-- Python/JSON-like runtime values. Python `int` and `float` are kept
apart (they print and convert differently); floats are modelled as exact
rationals. -/
inductive Val where
  | null
  | bool (b : Bool)
  | int (n : ℤ)
  | float (q : ℚ)
  | str (s : String)
  | list (xs : List Val)
  | dict (kvs : List (String × Val))
deriving Repr

/-- Python dictionaries with string keys: ordered association lists. -/
abbrev PyDict := List (String × Val)

/-- Lookup of the first binding of a key (`d.get(k)` before defaulting). -/
def dget : PyDict → String → Option Val
  | [], _ => none
  | (k', v') :: rest, k => if k' = k then some v' else dget rest k

/-- Python `d.get(k)`: absent keys yield `None`. -/
def dgetV (d : PyDict) (k : String) : Val :=
  (dget d k).getD .null

/-- Python `d[k] = v`: replace the binding in place if the key exists,
otherwise append the new binding at the end (insertion order). -/
def dset : PyDict → String → Val → PyDict
  | [], k, v => [(k, v)]
  | (k', v') :: rest, k, v =>
      if k' = k then (k, v) :: rest else (k', v') :: dset rest k v

/-- Python truthiness of a value. -/
def truthy : Val → Bool
  | .null => false
  | .bool b => b
  | .int n => n ≠ 0
  | .float q => q ≠ 0
  | .str s => s ≠ ""
  | .list xs => !xs.isEmpty
  | .dict kvs => !kvs.isEmpty

/-- Python `a or b`: the left operand if truthy, otherwise the right. -/
def pyOr (a b : Val) : Val :=
  if truthy a then a else b

/-- Numeric reading of a value for Python `==` and `float()`:
booleans count as 0/1, ints and floats as their rational value. -/
def numVal : Val → Option ℚ
  | .bool b => some (if b then 1 else 0)
  | .int n => some (n : ℚ)
  | .float q => some q
  | _ => none

/-- Lookup used by dictionary equality (first binding of a key). -/
def plainGet : List (String × Val) → String → Option Val
  | [], _ => none
  | (k', v') :: rest, k => if k' = k then some v' else plainGet rest k

mutual

/-- Python `==` on values: numeric kinds compare by value (so
`True == 1` and `1 == 1.0`), strings by content, lists pointwise,
dictionaries by key with equal cardinality (keys are assumed unique,
as Python dictionaries guarantee). -/
def pyEq : Val → Val → Bool
  | .str a, .str b => a = b
  | .null, .null => true
  | .list a, .list b => pyEqList a b
  | .dict a, .dict b => a.length = b.length && pyEqEntries a b
  | x, y =>
      match numVal x, numVal y with
      | some p, some q => p = q
      | _, _ => false

def pyEqList : List Val → List Val → Bool
  | [], [] => true
  | x :: xs, y :: ys => pyEq x y && pyEqList xs ys
  | _, _ => false

def pyEqEntries : List (String × Val) → List (String × Val) → Bool
  | [], _ => true
  | (k, v) :: rest, other =>
      (match plainGet other k with
       | some w => pyEq v w
       | none => false) && pyEqEntries rest other

end

/-- Python `x in xs` for a list, which tests with `==`. -/
def pyElem (v : Val) (xs : List Val) : Bool :=
  xs.any (fun x => pyEq v x)

/-- Integer part of a rational, truncated toward zero (Python `int(f)`). -/
def pyTrunc (q : ℚ) : ℤ :=
  if q < 0 then -(⌊-q⌋) else ⌊q⌋

/-- Decimal digits of a fractional part in `[0,1)`, with fuel.  Python
floats are dyadic rationals, so for values reachable from decimal
literals the expansion terminates well within the fuel. -/
def fracDigits : ℕ → ℚ → String
  | 0, _ => ""
  | fuel + 1, q =>
      if q = 0 then ""
      else
        let d := ⌊q * 10⌋
        toString d ++ fracDigits fuel (q * 10 - (d : ℚ))

/-- Rendering of a float value, `str(f)` style: integer part, a dot and
at least one fractional digit. -/
def floatStr (q : ℚ) : String :=
  let sign := if q < 0 then "-" else ""
  let a := |q|
  let ip := ⌊a⌋
  let fr := a - (ip : ℚ)
  sign ++ toString ip ++ "." ++ (if fr = 0 then "0" else fracDigits 40 fr)

mutual

/-- Python `str(v)`. -/
def pyStr : Val → String
  | .null => "None"
  | .bool b => if b then "True" else "False"
  | .int n => toString n
  | .float q => floatStr q
  | .str s => s
  | .list xs => "[" ++ String.intercalate ", " (pyReprList xs) ++ "]"
  | .dict kvs => "\x7b" ++ String.intercalate ", " (pyReprEntries kvs) ++ "\x7d"

/-- Python `repr(v)`, as used when rendering container elements. -/
def pyRepr : Val → String
  | .str s => "\x27" ++ s ++ "\x27"
  | .list xs => "[" ++ String.intercalate ", " (pyReprList xs) ++ "]"
  | .dict kvs => "\x7b" ++ String.intercalate ", " (pyReprEntries kvs) ++ "\x7d"
  | v => pyStr v

def pyReprList : List Val → List String
  | [] => []
  | x :: xs => pyRepr x :: pyReprList xs

def pyReprEntries : List (String × Val) → List String
  | [] => []
  | (k, v) :: rest => ("\x27" ++ k ++ "\x27: " ++ pyRepr v) :: pyReprEntries rest

end

/-- Parsing of a decimal string as a float (core of Python
`float(str)`): optional sign, digits with an optional dot, and an
optional exponent.  Exotic accepted spellings (`inf`, `nan`, digit
underscores) fall outside the rational model and yield `none`. -/
def parseDecimal (s : String) : Option ℚ :=
  let s := s.trim
  let (sign, rest) :=
    if s.startsWith "-" then ((-1 : ℚ), s.drop 1)
    else if s.startsWith "+" then ((1 : ℚ), s.drop 1)
    else ((1 : ℚ), s)
  let (mant, expPart) :=
    match rest.splitOn "e" with
    | [m] =>
        (match rest.splitOn "E" with
         | [m'] => (m', some (0 : ℤ))
         | [m', e'] => (m', (e'.toInt?))
         | _ => (m, none))
    | [m, e] => (m, e.toInt?)
    | _ => (rest, none)
  match expPart with
  | none => none
  | some ex =>
    let (ipStr, fpStr) :=
      match mant.splitOn "." with
      | [i] => (i, "")
      | [i, f] => (i, f)
      | _ => ("x", "x")
    if ipStr.all Char.isDigit ∧ fpStr.all Char.isDigit ∧
        (ipStr ≠ "" ∨ fpStr ≠ "") ∧ mant ≠ "" then
      let ipart : ℚ := ((ipStr.toNat?).getD 0 : ℤ)
      let fpart : ℚ := ((fpStr.toNat?).getD 0 : ℤ) / (10 : ℚ) ^ fpStr.length
      let base := sign * (ipart + fpart)
      some (if ex ≥ 0 then base * (10 : ℚ) ^ ex.toNat else base / (10 : ℚ) ^ (-ex).toNat)
    else none

/-- Embeds `_safe_float`: `float(v)` with a default on any exception. -/
def safe_float (v : Val) (default : ℚ) : ℚ :=
  match v with
  | .int n => (n : ℚ)
  | .float q => q
  | .bool b => if b then 1 else 0
  | .str s => (parseDecimal s).getD default
  | _ => default

/-- Clamp to the unit interval, `max(0.0, min(1.0, x))`. -/
def clamp01 (q : ℚ) : ℚ :=
  max 0 (min 1 q)

/-- Python banker's rounding of a rational to an integer
(round-half-to-even, as `round` does). -/
def pyRoundInt (q : ℚ) : ℤ :=
  if q - (⌊q⌋ : ℚ) < 1 / 2 then ⌊q⌋
  else if 1 / 2 < q - (⌊q⌋ : ℚ) then ⌊q⌋ + 1
  else if ⌊q⌋ % 2 = 0 then ⌊q⌋ else ⌊q⌋ + 1

/-- Python `round(x, 4)` in the rational model. -/
def round4 (q : ℚ) : ℚ :=
  ((pyRoundInt (q * 10000) : ℤ) : ℚ) / 10000

/-- Maximum of a list with a default for the empty list, Python
`max(xs, default=d)`. -/
def listMaxD (xs : List ℚ) (d : ℚ) : ℚ :=
  match xs with
  | [] => d
  | x :: rest => rest.foldl max x

/-- Minimum of a nonempty list presented as head and tail, Python
`min(points)`. -/
def listMinH (x : ℚ) (xs : List ℚ) : ℚ :=
  xs.foldl min x

/-- Maximum of a nonempty list presented as head and tail, Python
`max(points)`. -/
def listMaxH (x : ℚ) (xs : List ℚ) : ℚ :=
  xs.foldl max x

/-- Last element of a nonempty list presented as head and tail,
Python `points[-1]`. -/
def lastH (x : ℚ) : List ℚ → ℚ
  | [] => x
  | y :: ys => lastH y ys

/-- The five-key mapping returned by `calibrate_confidence`
(`Dict[str, float]` in the source). -/
structure ConfMeta where
  llm_conf : ℚ
  anomaly : ℚ
  corr_density : ℚ
  completeness : ℚ
  calibrated : ℚ
deriving Repr, DecidableEq

/-- The `llm_conf` local of `calibrate_confidence`: the stage-reported
confidence through `_safe_float` (default 0.5), clamped to `[0,1]`. -/
def llm_conf_of (decision : PyDict) : ℚ :=
  clamp01 (safe_float (dgetV decision "confidence") 0.5)

/-- The `anomaly` local of `calibrate_confidence`: when enrichments
exist, the maximum `host_anomaly_score` over dictionary entries
(default 0), clamped to `[0,1]`; otherwise 0. -/
def anomaly_of (enrichments : List Val) : ℚ :=
  if enrichments.isEmpty then 0
  else
    clamp01 (listMaxD
      (enrichments.filterMap (fun e =>
        match e with
        | .dict kvs => some (safe_float (dgetV kvs "host_anomaly_score") 0)
        | _ => none)) 0)

/-- The `corr_density` local of `calibrate_confidence`: fraction of
groups whose `matched_uptime` is truthy (`g.get("matched_uptime") or []`
is truthy exactly when the field itself is). -/
def corr_density_of (groups : List PyDict) : ℚ :=
  if groups.isEmpty then 0
  else
    ((groups.filter (fun g => truthy (dgetV g "matched_uptime"))).length : ℚ) /
      (max 1 groups.length : ℕ)

/-- The `completeness` local of `calibrate_confidence`: fraction of the
five expected signals present (groups, enrichments, evidence,
root_cause, 5W1H block). -/
def completeness_of (decision : PyDict) (groups : List PyDict)
    (enrichments : List Val) : ℚ :=
  (((if groups.isEmpty then 0 else 1) +
    (if enrichments.isEmpty then 0 else 1) +
    (if truthy (dgetV decision "evidence") then 1 else 0) +
    (if truthy (dgetV decision "root_cause") then 1 else 0) +
    (if truthy (dgetV decision "itsm_5w1h") then 1 else 0) : ℚ)) / 5

/-- The weighted blend computed by `calibrate_confidence` before its
final clamp and rounding. -/
def calibrated_raw (decision : PyDict) (groups : List PyDict)
    (enrichments : List Val) : ℚ :=
  llm_conf_of decision * (40 / 100) + anomaly_of enrichments * (25 / 100) +
    corr_density_of groups * (20 / 100) +
    completeness_of decision groups enrichments * (15 / 100)

/-- Embeds `calibrate_confidence`: every returned entry is rounded to
four decimals, the `calibrated` entry after a clamp to `[0,1]`. -/
def calibrate_confidence (decision : PyDict) (groups : List PyDict)
    (enrichments : List Val) : ConfMeta :=
  { llm_conf := round4 (llm_conf_of decision)
    anomaly := round4 (anomaly_of enrichments)
    corr_density := round4 (corr_density_of groups)
    completeness := round4 (completeness_of decision groups enrichments)
    calibrated := round4 (clamp01 (calibrated_raw decision groups enrichments)) }

/-- The three standard missing-data items appended by the guardrail. -/
def neededItems : List String :=
  ["Additional host metrics around incident window",
   "Application/service logs correlated with alert time",
   "Verification from on-call/operator confirmation"]

/-- The standard immediate action appended by the guardrail. -/
def extraAction : String :=
  "Collect missing data above before final root-cause closure."

/-- The default root-cause text used when the decision has none. -/
def defaultRootCause : String :=
  "Insufficient evidence for definitive root cause"

/-- The check `rc.lower().startswith("likely")`: the pattern is matched
against the character-wise lowercasing of the text. -/
def lowerStartsLikely (s : String) : Bool :=
  "likely".data.isPrefixOf (s.data.map Char.toLower)

/-- The loop appending every item of `ns` not already in `xs`
(`for n in needed: if n not in missing: missing.append(n)`). -/
def appendNew (xs : List Val) : List String → List Val
  | [] => xs
  | n :: ns =>
      appendNew (if pyElem (.str n) xs then xs else xs ++ [.str n]) ns

/-- Whether the guardrail engages for a metrics mapping. -/
def guardrailOn (m : ConfMeta) : Bool :=
  m.calibrated < 45 / 100 || m.completeness < 35 / 100

/-- The root-cause text the guardrail works from:
`str(out.get("root_cause") or "Insufficient evidence ...")`. -/
def guardRcText (rc0 : Val) : String :=
  pyStr (if truthy rc0 then rc0 else .str defaultRootCause)

/-- The unconditional updates of `apply_guardrail` on the shallow copy
`out = dict(decision)`: audit copies of the metrics plus the guardrail
flag. -/
def confBase (decision : PyDict) (m : ConfMeta) : PyDict :=
  dset (dset (dset (dset decision
    "confidence_raw" (.float m.llm_conf))
    "confidence" (.float m.calibrated))
    "confidence_calibrated" (.float m.calibrated))
    "guardrail_mode" (.bool (guardrailOn m))

/-- The guarded root-cause rewrite of `apply_guardrail`. -/
def guardStepRc (out : PyDict) : PyDict :=
  let rc := guardRcText (dgetV out "root_cause")
  if lowerStartsLikely rc then out
  else dset out "root_cause" (.str ("Likely: " ++ rc))

/-- Reading of a value as a list, empty for non-lists (as the
`missing_data` branch of `apply_guardrail` does). -/
def asListOr (v : Val) : List Val :=
  match v with
  | .list xs => xs
  | _ => []

/-- The guarded `missing_data` extension of `apply_guardrail`. -/
def guardStepMissing (out : PyDict) : PyDict :=
  dset out "missing_data"
    (.list (appendNew (asListOr (dgetV out "missing_data")) neededItems))

/-- The list the `immediate_actions` branch works from: the field
itself when it is a list, otherwise its string rendering boxed (or
nothing when falsy). -/
def immListOf (v : Val) : List Val :=
  match v with
  | .list ys => ys
  | v => if truthy v then [Val.str (pyStr v)] else []

/-- The new `immediate_actions` value after the guarded append. -/
def immAppended (ys : List Val) : List Val :=
  if pyElem (.str extraAction) ys then ys else ys ++ [.str extraAction]

/-- The guarded `immediate_actions` extension of `apply_guardrail`. -/
def guardStepImmediate (out : PyDict) : PyDict :=
  dset out "immediate_actions"
    (.list (immAppended (immListOf (dgetV out "immediate_actions"))))

/-- Embeds `apply_guardrail` (value behaviour; the aliasing effect on
the caller's lists is carried by `apply_guardrail_mut` below). -/
def apply_guardrail (decision : PyDict) (m : ConfMeta) : PyDict :=
  if guardrailOn m then
    guardStepImmediate (guardStepMissing (guardStepRc (confBase decision m)))
  else confBase decision m

/-- Mutation of the caller's `missing_data` binding: when the shared
field is a list object, the guardrail's in-place appends are visible
through the caller's dictionary. -/
def decMdStep (decision : PyDict) (mdVal : Val) : PyDict :=
  match mdVal with
  | .list xs =>
      dset decision "missing_data" (.list (appendNew xs neededItems))
  | _ => decision

/-- Mutation of the caller's `immediate_actions` binding: when the
shared field is a list object, the guarded append is visible through
the caller's dictionary (a non-list value is replaced by a fresh list
in the copy only). -/
def decIaStep (decision : PyDict) (iaVal : Val) : PyDict :=
  match iaVal with
  | .list ys =>
      dset decision "immediate_actions" (.list (immAppended ys))
  | _ => decision

/-- The caller's decision dictionary after `apply_guardrail` returns:
`out = dict(decision)` copies only the top level, so when the
decision's `missing_data` (resp. `immediate_actions`) is a list object
the in-place `append` calls are visible through the caller's dictionary
as well.  List-valued fields are assumed to be distinct objects, as
JSON decoding produces them. -/
def decisionAfterGuardrail (decision : PyDict) (m : ConfMeta) : PyDict :=
  if guardrailOn m then
    decIaStep
      (decMdStep decision
        (dgetV (guardStepRc (confBase decision m)) "missing_data"))
      (dgetV (guardStepMissing (guardStepRc (confBase decision m)))
        "immediate_actions")
  else decision

/-- Embeds `apply_guardrail` together with its side effect on the
caller: the returned dictionary paired with the caller's decision
after the call. -/
def apply_guardrail_mut (decision : PyDict) (m : ConfMeta) :
    PyDict × PyDict :=
  (apply_guardrail decision m, decisionAfterGuardrail decision m)

/-- The per-metric statistics dictionary built by `summarize_series`.
For an empty series every optional field is `None` (`none`), the trend
is `"unknown"` and the anomaly score is 0. -/
structure MetricSummary where
  count : ℕ
  latest : Option ℚ
  first : Option ℚ
  min : Option ℚ
  max : Option ℚ
  avg : Option ℚ
  delta : Option ℚ
  change : Option ℚ
  trend : String
  volatility : Option ℚ
  anomaly_score : ℚ
deriving Repr, DecidableEq

/-- Embeds `summarize_series` for a nonempty series given as head and
tail (the locals keep their Python names). -/
def summarizeCons (p : ℚ) (rest : List ℚ) : MetricSummary :=
  let points := p :: rest
  let mn := listMinH p rest
  let mx := listMaxH p rest
  let avg := points.sum / (points.length : ℚ)
  let latest := lastH p rest
  let first := p
  let delta := mx - mn
  let change := latest - first
  let trend := if change > 0 then "up" else if change < 0 then "down" else "stable"
  let volatility := if avg ≠ 0 then delta / |avg| else delta
  let change_ratio := if first ≠ 0 then |change| / |first| else |change|
  let movement := min 1 change_ratio
  let vol := min 1 volatility
  let anomaly_score := round4 (movement * (6 / 10) + vol * (4 / 10))
  { count := points.length
    latest := some latest
    first := some first
    min := some mn
    max := some mx
    avg := some avg
    delta := some delta
    change := some change
    trend := trend
    volatility := some volatility
    anomaly_score := anomaly_score }

/-- Embeds `summarize_series`. -/
def summarize_series : List ℚ → MetricSummary
  | [] =>
      { count := 0, latest := none, first := none, min := none, max := none
        avg := none, delta := none, change := none, trend := "unknown"
        volatility := none, anomaly_score := 0 }
  | p :: rest => summarizeCons p rest

/-- Environment defaults of the correlation configuration
(`TIME_WINDOW_MINUTES = 10`, `LOOKBACK_MINUTES = 30`). -/
def TIME_WINDOW_MINUTES : ℤ := 10

/-- Derived constant `TIME_WINDOW_SEC = TIME_WINDOW_MINUTES * 60`. -/
def TIME_WINDOW_SEC : ℤ := TIME_WINDOW_MINUTES * 60

/-- Environment default of the lookback horizon in minutes. -/
def LOOKBACK_MINUTES : ℤ := 30

/-- Number of days from the civil epoch 1970-01-01 to a civil date
(standard days-from-civil computation, used for the ISO branch of the
timestamp normalizer). -/
def daysFromCivil (y m d : ℤ) : ℤ :=
  let y' := if m ≤ 2 then y - 1 else y
  let era := (if y' ≥ 0 then y' else y' - 399) / 400
  let yoe := y' - era * 400
  let mp := (m + 9) % 12
  let doy := (153 * mp + 2) / 5 + d - 1
  let doe := yoe * 365 + yoe / 4 - yoe / 100 + doy
  era * 146097 + doe - 719468

/-- Parse a fixed-width run of digits as a natural number. -/
def digitsToNat (s : String) : Option ℕ :=
  if s ≠ "" ∧ s.all Char.isDigit then s.toNat? else none

/-- Parse `HH:MM[:SS[.ffffff]]` to seconds (fraction dropped, as later
truncation to whole epoch seconds does). -/
def parseClockPart (s : String) : Option ℤ :=
  match s.splitOn ":" with
  | [h, mi] => do
      let h ← digitsToNat h
      let mi ← digitsToNat mi
      if h < 24 ∧ mi < 60 then pure ((h : ℤ) * 3600 + mi * 60) else none
  | [h, mi, se] => do
      let h ← digitsToNat h
      let mi ← digitsToNat mi
      let se ← digitsToNat (se.takeWhile Char.isDigit)
      if h < 24 ∧ mi < 60 ∧ se < 62 then
        pure ((h : ℤ) * 3600 + mi * 60 + se)
      else none
  | _ => none

/-- Parse `YYYY-MM-DD` to days since the epoch. -/
def parseDatePart (s : String) : Option ℤ :=
  match s.splitOn "-" with
  | [y, m, d] => do
      let y ← digitsToNat y
      let m ← digitsToNat m
      let d ← digitsToNat d
      if 1 ≤ m ∧ m ≤ 12 ∧ 1 ≤ d ∧ d ≤ 31 then
        pure (daysFromCivil y m d)
      else none
  | _ => none

/-- ISO-8601 subset accepted by the normalizer's `fromisoformat`
branch: a date, optionally a `T`/space separated time, optionally a
`±HH:MM` offset (a `Z` has been rewritten to `+00:00` by the caller).
A timestamp without an offset is read as UTC, as the source does. -/
def parseIso (s : String) : Option ℤ := do
  let sep :=
    if s.length > 10 then some (s.get ⟨10⟩)
    else none
  let (datePart, rest) :=
    match sep with
    | some c => if c = 'T' ∨ c = ' ' then (s.take 10, s.drop 11) else (s, "")
    | none => (s, "")
  let days ← parseDatePart datePart
  if rest = "" then
    pure (days * 86400)
  else
    let (timePart, offSec) :=
      match rest.splitOn "+" with
      | [t, off] =>
          (t, (parseClockPart off).map (fun x => x))
      | _ =>
          match rest.splitOn "-" with
          | [t, off] => (t, (parseClockPart off).map (fun x => -x))
          | _ => (rest, some 0)
    let secs ← parseClockPart timePart
    let off ← offSec
    pure (days * 86400 + secs - off)

/-- Python `str.strip()` on the character list of a string. -/
def stripChars (cs : List Char) : List Char :=
  ((cs.dropWhile Char.isWhitespace).reverse.dropWhile Char.isWhitespace).reverse

/-- Value of a digit string (`int(s)` for an all-digit `s`). -/
def digitsVal (cs : List Char) : ℕ :=
  cs.foldl (fun a c => a * 10 + (c.toNat - 48)) 0

/-- Embeds `parse_ts`: numeric values (booleans included, since Python
booleans are ints) are epoch stamps, scaled down when they look like
milliseconds; digit strings likewise; other strings go through the ISO
branch after `Z` is rewritten to `+00:00`; everything else is
unparseable. -/
def parse_ts : Val → Option ℤ
  | .null => none
  | .bool b => some (if b then 1 else 0)
  | .int n => some (if n > 10000000000 then n / 1000 else n)
  | .float q =>
      let t := pyTrunc q
      some (if t > 10000000000 then t / 1000 else t)
  | .str s =>
      let cs := stripChars s.data
      if cs = [] then none
      else if cs.all Char.isDigit then
        some (if (digitsVal cs : ℤ) > 10000000000 then
          (digitsVal cs : ℤ) / 1000 else (digitsVal cs : ℤ))
      else
        parseIso ((String.mk cs).replace "Z" "+00:00")
  | _ => none

/-- Embeds `within_window`. -/
def within_window (a b : ℤ) : Bool :=
  |a - b| ≤ TIME_WINDOW_SEC

/-- One flattened uptime event as built inside `correlate`. -/
structure UpEvent where
  ts : ℤ
  monitor : Val
  url : Val
  status : Val
  log : Val
deriving Repr

/-- One correlation group as built by `correlate`; the nested
`"zabbix"` sub-dictionary is kept as a `PyDict`. -/
structure Group where
  zabbix : PyDict
  zabbix_ts : ℤ
  matched_uptime : List UpEvent
  window_min : ℤ
deriving Repr

/-- The timestamp of an uptime log entry, with the source's falsy-chain
field choice: `lg.get("datetime") or lg.get("time") or
lg.get("created_at")`; a parse result of 0 is rejected by the
`if not ts` check. -/
def upLogTs (lg : PyDict) : Option ℤ :=
  match parse_ts (pyOr (dgetV lg "datetime")
      (pyOr (dgetV lg "time") (dgetV lg "created_at"))) with
  | some t => if t = 0 then none else some t
  | none => none

/-- The flattened uptime event list built by `correlate` from the
monitor list (entries whose timestamp is unparseable or zero are
skipped). -/
def upEventsOf (upr : List PyDict) : List UpEvent :=
  upr.flatMap (fun m =>
    (match dgetV m "logs" with
     | .list ls => ls
     | _ => []).filterMap (fun (lgv : Val) =>
      match lgv with
      | .dict lg =>
          (upLogTs lg).map (fun t =>
            { ts := t, monitor := dgetV m "friendly_name"
              url := dgetV m "url", status := dgetV m "status"
              log := lgv })
      | _ => none))

/-- The incident timestamp used by `correlate`:
`z.get("clock") or z.get("event_time") or z.get("timestamp")`, with a
parse result of 0 rejected by the `if not zts` check. -/
def zEventTs (z : PyDict) : Option ℤ :=
  match parse_ts (pyOr (dgetV z "clock")
      (pyOr (dgetV z "event_time") (dgetV z "timestamp"))) with
  | some t => if t = 0 then none else some t
  | none => none

/-- The nested `"zabbix"` dictionary of a group. -/
def zInfoOf (z : PyDict) : PyDict :=
  let hosts :=
    match dgetV z "hosts" with
    | .list hs => hs
    | _ => []
  let host0 :=
    match hosts with
    | .dict h :: _ => h
    | _ => []
  [("eventid", dgetV z "eventid"),
   ("name", dgetV z "name"),
   ("severity", dgetV z "severity"),
   ("tags", (dget z "tags").getD (.list [])),
   ("clock", dgetV z "clock"),
   ("hostname", pyOr (dgetV host0 "host") (dgetV host0 "name")),
   ("hostid", dgetV host0 "hostid")]

/-- Embeds `correlate`, with the wall clock (`datetime.now`) passed in
explicitly.  Incident events with unparseable or zero timestamps, or
older than the lookback horizon, yield no group; each surviving
incident matches exactly the flattened uptime events within the window. -/
def correlate (now : ℤ) (zbx : List PyDict) (upr : List PyDict) :
    List Group :=
  let up_events := upEventsOf upr
  zbx.filterMap (fun z =>
    match zEventTs z with
    | none => none
    | some zts =>
        if zts < now - LOOKBACK_MINUTES * 60 then none
        else
          some { zabbix := zInfoOf z
                 zabbix_ts := zts
                 matched_uptime := up_events.filter (fun e => within_window zts e.ts)
                 window_min := TIME_WINDOW_MINUTES })

/-- Python `s.lower().split()`: lowercase, then split on whitespace
runs with no empty pieces, at the character-list level. -/
def pyWords (s : String) : List String :=
  (((s.data.map Char.toLower).splitOnP (fun c => c.isWhitespace)).filter
    (fun w => w ≠ [])).map String.mk

/-- Embeds `_normalize_text`: `" ".join(str(s or "").lower().split())`. -/
def normalizeText (v : Val) : String :=
  String.intercalate " " (pyWords (pyStr (pyOr v (.str ""))))

/-- Embeds `_token_set`: the normalized text with newlines replaced by
spaces, split on single spaces, keeping tokens of length at least 3,
as a set. -/
def tokenSet (v : Val) : Finset String :=
  (((((normalizeText v).data.map (fun c => if c = '\n' then ' ' else c)).splitOnP
      (fun c => c = ' ')).map String.mk).filter
    (fun t => 3 ≤ t.length)).toFinset

/-- The weighted field list of `_weighted_token_overlap`. -/
def kbFields : List (String × ℚ) :=
  [("title", 25 / 10), ("root_cause", 25 / 10), ("solution", 22 / 10),
   ("problem", 18 / 10), ("summary", 14 / 10), ("description", 1),
   ("content", 8 / 10)]

/-- One loop step of `_weighted_token_overlap`: fields whose token set
is empty are skipped, otherwise the Jaccard score of the field is
accumulated with its weight. -/
def overlapStep (sol : Finset String) (kb : PyDict) (acc : ℚ × ℚ)
    (fw : String × ℚ) : ℚ × ℚ :=
  let kbTokens := tokenSet (dgetV kb fw.1)
  if kbTokens = ∅ then acc
  else
    let overlap := (sol ∩ kbTokens).card
    let union := (sol ∪ kbTokens).card
    let s := (overlap : ℚ) / (max 1 union : ℕ)
    (acc.1 + s * fw.2, acc.2 + fw.2)

/-- Embeds `_weighted_token_overlap`. -/
def weighted_token_overlap (sol : Finset String) (kb : PyDict) : ℚ :=
  let acc := kbFields.foldl (overlapStep sol kb) (0, 0)
  if acc.2 > 0 then acc.1 / acc.2 else 0

/-- The id value of a KB entry:
`kb.get("id") or kb.get("kb_id") or kb.get("article_id") or
kb.get("knowledge_id")`. -/
def kbIdVal (kb : PyDict) : Val :=
  pyOr (dgetV kb "id") (pyOr (dgetV kb "kb_id")
    (pyOr (dgetV kb "article_id") (dgetV kb "knowledge_id")))

/-- The result record of `pick_best_kb_match`. -/
structure KBMatch where
  id : Option String
  score : ℚ
deriving Repr, DecidableEq

/-- One loop step of `pick_best_kb_match`: entries with a falsy id are
skipped, and a strictly greater score takes over the running best. -/
def kbStep (sol : Finset String) (acc : Option String × ℚ) (kb : PyDict) :
    Option String × ℚ :=
  if truthy (kbIdVal kb) then
    if acc.2 < weighted_token_overlap sol kb then
      (some (pyStr (kbIdVal kb)), weighted_token_overlap sol kb)
    else acc
  else acc

/-- The running `(best_id, best_score)` of `pick_best_kb_match` after
a list of entries. -/
def kbFold (sol : Finset String) (entries : List PyDict) :
    Option String × ℚ :=
  entries.foldl (kbStep sol) (none, 0)

/-- Embeds `pick_best_kb_match`. -/
def pick_best_kb_match (solution_text : String) (entries : List PyDict)
    (min_score : ℚ) : KBMatch :=
  let sol := tokenSet (.str solution_text)
  if sol = ∅ then { id := none, score := 0 }
  else
    let best := kbFold sol entries
    if best.2 < min_score then { id := none, score := round4 best.2 }
    else { id := best.1, score := round4 best.2 }

/-- One metric row of the enrichment result: the per-item dictionary
with its summary. -/
structure MetricRow where
  itemid : Val
  name : Val
  key : Val
  units : Val
  summary : MetricSummary
deriving Repr

/-- The enrichment result dictionary of
`zabbix_enrich_from_hostname_eventid`; the failure notes keep the
source's wording. -/
structure EnrichResult where
  hostname : String
  eventid : String
  event_clock : Option ℤ
  window : Option (ℤ × ℤ)
  host_anomaly_score : ℚ
  anomalies : List MetricRow
  metrics : List MetricRow
  note : Option String
deriving Repr

/-- The external world the enrichment function talks to: configuration
plus the responses of the monitoring server, one field per RPC
(`host.get`, `event.get`, `item.get`, `history.get`). -/
structure EnrichDeps where
  zabbix_url : String
  zabbix_token : String
  hostidOf : String → Option String
  eventClockOf : String → Option ℤ
  items : List PyDict
  historyOf : String → List PyDict

/-- Top-N bound for kept metric rows (`ENRICH_TOP_N_ITEMS` default). -/
def ENRICH_TOP_N_ITEMS : ℕ := 5

/-- Lookback for the derived enrichment window
(`ENRICH_LOOKBACK_MINUTES` default). -/
def ENRICH_LOOKBACK_MINUTES : ℤ := 20

/-- Embeds `zabbix_hostid_from_hostname`: `None` without configuration
or hostname, otherwise the resolved id string of the first result. -/
def zabbix_hostid_from_hostname (deps : EnrichDeps) (hostname : String) :
    Option String :=
  if deps.zabbix_url = "" ∨ deps.zabbix_token = "" ∨ hostname = "" then none
  else deps.hostidOf hostname

/-- Embeds `zabbix_event_clock`: `None` without configuration or event
id, otherwise the parsed clock of the matching event. -/
def zabbix_event_clock (deps : EnrichDeps) (eventid : String) : Option ℤ :=
  if deps.zabbix_url = "" ∨ deps.zabbix_token = "" ∨ eventid = "" then none
  else deps.eventClockOf eventid

/-- Python `int(v)` on a value, `none` when the conversion raises. -/
def pyToInt (v : Val) : Option ℤ :=
  match v with
  | .int n => some n
  | .float q => some (pyTrunc q)
  | .bool b => some (if b then 1 else 0)
  | .str s =>
      let s := s.trim
      if s ≠ "" ∧ s.all Char.isDigit then (s.toNat?).map (fun n => (n : ℤ))
      else if s.startsWith "-" ∧ (s.drop 1) ≠ "" ∧ (s.drop 1).all Char.isDigit then
        ((s.drop 1).toNat?).map (fun n => -(n : ℤ))
      else none
  | _ => none

/-- The per-item worker of the enrichment function (`one_item`): skip
non-numeric value types, collect the parsable history values, drop
items with an empty series, otherwise keep the summarised row. -/
def oneItem (deps : EnrichDeps) (it : PyDict) : Option (Option MetricRow) := do
  let vt ← pyToInt (pyOr ((dget it "value_type").getD (.int 0)) (.int 0))
  if vt ≠ 0 ∧ vt ≠ 3 then
    pure none
  else
    let hist := deps.historyOf (pyStr (dgetV it "itemid"))
    let vals := hist.filterMap (fun h =>
      match numVal (dgetV h "value") with
      | some q => some q
      | none =>
          match dgetV h "value" with
          | .str s => parseDecimal s
          | _ => none)
    let s := summarize_series vals
    if s.count = 0 then pure none
    else pure (some { itemid := dgetV it "itemid", name := dgetV it "name"
                      key := dgetV it "key_", units := dgetV it "units"
                      summary := s })

/-- Sort key of the metric ranking:
`x.get("summary", {}).get("anomaly_score") or 0` (an anomaly score of 0
falls through the `or` unchanged). -/
def rowScore (m : MetricRow) : ℚ :=
  m.summary.anomaly_score

/-- The tail of the enrichment function once a window is fixed:
summarise every candidate item, rank by anomaly score descending
(stable, as the source's sort is), keep the top N, collect the
significant anomalies and average the kept scores.  An item whose
declared value type cannot be read as an int makes the whole call
raise, mirrored by the `Except` error. -/
def enrichTail (deps : EnrichDeps) (hostname eventid : String)
    (event_clock time_from time_till : ℤ) : Except String EnrichResult :=
  match deps.items.mapM (oneItem deps) with
  | none => .error "invalid value_type"
  | some maybeRows =>
      let metric_rows := maybeRows.filterMap id
      let sorted := metric_rows.mergeSort
        (fun a b => decide (rowScore b ≤ rowScore a))
      let top_metrics := sorted.take ENRICH_TOP_N_ITEMS
      let anomalies := top_metrics.filter
        (fun m => decide (35 / 100 ≤ rowScore m))
      let host_anomaly_score :=
        if top_metrics.isEmpty then 0
        else round4 ((top_metrics.map rowScore).sum / (top_metrics.length : ℚ))
      .ok { hostname := hostname, eventid := eventid
            event_clock := some event_clock
            window := some (time_from, time_till)
            host_anomaly_score := host_anomaly_score
            anomalies := anomalies, metrics := top_metrics, note := none }

/-- Truthiness of the explicit window's `from`/`till` entries, as the
`if explicit_window and explicit_window.get("from") and
explicit_window.get("till")` check reads them. -/
def explicitWindowOk (ew : Option PyDict) : Bool :=
  match ew with
  | some w => truthy (dgetV w "from") && truthy (dgetV w "till")
  | none => false

/-- The event clock used with an explicit window: the resolved clock
when truthy, otherwise the window midpoint. -/
def clockOrMid (clock : Option ℤ) (tf tt : ℤ) : ℤ :=
  match clock with
  | some c => if c = 0 then (tf + tt) / 2 else c
  | none => (tf + tt) / 2

/-- The soft-failure result of the enrichment: empty metrics with an
explanatory note, keeping the source's wording. -/
def enrichSoftFail (hostname eventid : String) (clock : Option ℤ)
    (note : String) : EnrichResult :=
  { hostname := hostname, eventid := eventid, event_clock := clock
    window := none, host_anomaly_score := 0, anomalies := []
    metrics := [], note := some note }

/-- Embeds `zabbix_enrich_from_hostname_eventid`.  The `Except` layer
records where the source could raise: the `int()` conversions of an
explicit window and of item value types can, every other path returns a
result.  The soft failure paths return an empty metric list and a note. -/
def zabbix_enrich_from_hostname_eventid (deps : EnrichDeps)
    (hostname eventid : String) (explicit_window : Option PyDict) :
    Except String EnrichResult :=
  if hostname = "" ∨ eventid = "" ∨ deps.zabbix_url = "" ∨
      deps.zabbix_token = "" then
    .ok (enrichSoftFail hostname eventid none "missing inputs or zabbix creds")
  else if zabbix_hostid_from_hostname deps hostname = none ∨
      zabbix_hostid_from_hostname deps hostname = some "" then
    .ok (enrichSoftFail hostname eventid (zabbix_event_clock deps eventid)
      "hostid not found")
  else if explicitWindowOk explicit_window then
    match explicit_window with
    | some w =>
        (match pyToInt (dgetV w "from"), pyToInt (dgetV w "till") with
         | some tf, some tt =>
             enrichTail deps hostname eventid
               (clockOrMid (zabbix_event_clock deps eventid) tf tt) tf tt
         | _, _ => .error "invalid literal for int()")
    | none => .error "unreachable"
  else
    match zabbix_event_clock deps eventid with
    | some c =>
        if c = 0 then
          .ok (enrichSoftFail hostname eventid (some c)
            "event_clock not found")
        else
          enrichTail deps hostname eventid c
            (c - ENRICH_LOOKBACK_MINUTES * 60) (c + TIME_WINDOW_SEC)
    | none =>
        .ok (enrichSoftFail hostname eventid none "event_clock not found")

/-! Spec-side definitions.  Each follows the wording of the
specification / claim it formalises, for comparison with the embedded
source functions above. -/

/-- Stated anomaly input of the calibration (claim C2's words): the
maximum `host_anomaly_score` over the enrichments, 0 if there are none
— with no clamping. -/
def specAnomaly (enrichments : List Val) : ℚ :=
  listMaxD
    (enrichments.filterMap (fun e =>
      match e with
      | .dict kvs => some (safe_float (dgetV kvs "host_anomaly_score") 0)
      | _ => none)) 0

/-- Stated correlation density (claim C2's words): the fraction of
correlation groups with at least one matched uptime event, 0 when there
are no groups. -/
def specCorrDensity (groups : List PyDict) : ℚ :=
  if groups.isEmpty then 0
  else
    ((groups.filter (fun g =>
        match dgetV g "matched_uptime" with
        | .list xs => !xs.isEmpty
        | _ => false)).length : ℚ) / (groups.length : ℚ)

/-- Stated completeness (claim C2's words): the fraction of the five
expected inputs that are present — groups, enrichments, evidence,
root_cause, 5W1H block — reading "present" as provided and nonempty
(Python truthiness). -/
def specCompleteness (decision : PyDict) (groups : List PyDict)
    (enrichments : List Val) : ℚ :=
  (((if groups.isEmpty then 0 else 1) +
    (if enrichments.isEmpty then 0 else 1) +
    (if truthy (dgetV decision "evidence") then 1 else 0) +
    (if truthy (dgetV decision "root_cause") then 1 else 0) +
    (if truthy (dgetV decision "itsm_5w1h") then 1 else 0) : ℚ)) / 5

/-- Stated calibrated confidence exactly as claim C2 words it:
`0.40·llm_conf + 0.25·anomaly + 0.20·corr_density + 0.15·completeness`
clamped to `[0,1]`, with `llm_conf` the clamped (defaulted) stage
confidence and `anomaly` the unclamped maximum. -/
def specCalibratedC2 (decision : PyDict) (groups : List PyDict)
    (enrichments : List Val) : ℚ :=
  clamp01 ((40 / 100) * clamp01 (safe_float (dgetV decision "confidence") (5 / 10)) +
    (25 / 100) * specAnomaly enrichments +
    (20 / 100) * specCorrDensity groups +
    (15 / 100) * specCompleteness decision groups enrichments)

/-- Movement term of claim C5 exactly as stated:
`clamp(|latest-first| / |first|, 0, 1)`, and 0 when `first` is zero. -/
def specMovementC5 (first latest : ℚ) : ℚ :=
  if first = 0 then 0 else clamp01 (|latest - first| / |first|)

/-- Movement term as the code computes it (the amended claim C5): when
`first` is zero the raw `|latest-first|` is clamped to 1 instead. -/
def specMovementAmended (first latest : ℚ) : ℚ :=
  if first = 0 then min 1 |latest - first|
  else clamp01 (|latest - first| / |first|)

/-- Volatility term of claim C5: `clamp((max-min)/|avg|, 0, 1)`, and
the raw `(max-min)` clamped to 1 when `avg` is zero. -/
def specVolC5 (mn mx avg : ℚ) : ℚ :=
  if avg = 0 then min 1 (mx - mn) else clamp01 ((mx - mn) / |avg|)

/-- Anomaly score formula of claim C5 as stated. -/
def specAnomalyScoreC5 (p : ℚ) (rest : List ℚ) : ℚ :=
  round4 ((6 / 10) * specMovementC5 p (lastH p rest) +
    (4 / 10) * specVolC5 (listMinH p rest) (listMaxH p rest)
      ((p :: rest).sum / ((p :: rest).length : ℚ)))

/-- Jaccard overlap between two token sets, with the denominator
guarded at 1 as in the source. -/
def jaccardScore (a b : Finset String) : ℚ :=
  ((a ∩ b).card : ℚ) / (max 1 (a ∪ b).card : ℕ)

/-- The weighted fields actually present on a KB entry: those whose
token set is nonempty (claim C8's "fields actually present"). -/
def presentFields (kb : PyDict) : List (String × ℚ) :=
  kbFields.filter (fun fw => tokenSet (dgetV kb fw.1) ≠ ∅)

/-- Per-entry KB score exactly as claim C8 words it: per-field Jaccard
overlaps, weighted, normalized by the sum of the weights of the fields
actually present on the entry. -/
def specKbScore (sol : Finset String) (kb : PyDict) : ℚ :=
  if presentFields kb = [] then 0
  else
    ((presentFields kb).map (fun fw =>
      fw.2 * jaccardScore sol (tokenSet (dgetV kb fw.1)))).sum /
      ((presentFields kb).map Prod.snd).sum

/-- The calibration blend as a function of its four quantitative
inputs, exactly as `calibrate_confidence` combines them. -/
def calibratedBlend (l a c k : ℚ) : ℚ :=
  round4 (clamp01 (l * (40 / 100) + a * (25 / 100) + c * (20 / 100) +
    k * (15 / 100)))

/-- Concrete decision input for claim C2: a stage confidence of
`0.3333` exercises the four-decimal rounding of the calibration. -/
def cexDecisionC2 : PyDict := [("confidence", .float (3333 / 10000))]

/-- Concrete enrichment input for claim C2: a `host_anomaly_score` of
`2.0` exercises the clamping of the anomaly input. -/
def cexEnrichC2 : List Val := [.dict [("host_anomaly_score", .float 2)]]

/-- Concrete decision input for claim C1: a truthy root cause beginning
with lowercase `"likely"` but not with the exact text `"Likely: "`. -/
def cexDecisionC1 : PyDict :=
  [("confidence", .float (3 / 10)), ("root_cause", .str "likely full disk")]

/-- Concrete decision for the C1 scenario: stage confidence `0.3`, no
evidence, no root cause, no 5W1H block. -/
def scenDecisionC1 : PyDict := [("confidence", .float (3 / 10))]

/-- Concrete well-formed correlation-group dictionary with one matched
uptime event, used by witnesses. -/
def witGroup : PyDict := [("matched_uptime", .list [.int 1])]

/-- Concrete incident event of the C7 window scenario: epoch 1000,
severity high. -/
def scenZ7 : PyDict :=
  [("clock", .int 1000), ("eventid", .str "1"), ("severity", .str "high")]

/-- Concrete uptime monitor of the C7 window scenario, with log entries
at epochs 1550 (in window) and 1700 (out of window). -/
def scenMon7 : PyDict :=
  [("friendly_name", .str "m"),
   ("logs", .list [.dict [("datetime", .int 1550)],
                   .dict [("datetime", .int 1700)]])]

/-- The flattened uptime event at epoch 1550 of the C7 scenario. -/
def upEv1550 : UpEvent :=
  { ts := 1550, monitor := .str "m", url := .null, status := .null
    log := .dict [("datetime", .int 1550)] }

/-- The correlation group the C7 scenario produces. -/
def scenGroup7 : Group :=
  { zabbix := zInfoOf scenZ7, zabbix_ts := 1000
    matched_uptime := [upEv1550], window_min := TIME_WINDOW_MINUTES }

/-- Concrete incident event of the C7 counterexample: epoch 500. -/
def cexZ7 : PyDict := [("clock", .int 500)]

/-- Concrete uptime monitor of the C7 counterexample: one log whose
timestamp parses to epoch 0 (delta 500 from the incident, inside the
window) yet is dropped by the `if not ts` truthiness check. -/
def cexMon7 : PyDict :=
  [("logs", .list [.dict [("datetime", .str "0")]])]

/-- The token set of a plain string, with the `str(s or "")` step
already resolved; used to evaluate `tokenSet` on concrete strings. -/
def tokenSetStr (s : String) : Finset String :=
  ((((String.intercalate " " (pyWords s)).data.map
      (fun c => if c = '\n' then ' ' else c)).splitOnP
      (fun c => c = ' ')).map String.mk |>.filter
    (fun t => 3 ≤ t.length)).toFinset

/-- Concrete solution text for the C8 witnesses. -/
def witSolutionText : String := "disk full error"

/-- Concrete KB entry identical to the witness solution text in every
weighted field. -/
def witKbIdentical : PyDict :=
  [("id", .str "KB1"),
   ("title", .str witSolutionText),
   ("root_cause", .str witSolutionText),
   ("solution", .str witSolutionText),
   ("problem", .str witSolutionText),
   ("summary", .str witSolutionText),
   ("description", .str witSolutionText),
   ("content", .str witSolutionText)]

/-- Concrete enrichment environment for the C9 witness: no
configuration and empty oracles. -/
def witDeps : EnrichDeps :=
  { zabbix_url := "", zabbix_token := "", hostidOf := fun _ => none
    eventClockOf := fun _ => none, items := [], historyOf := fun _ => [] }

/-- Concrete decision dictionary for the C10 witness: list-valued
`missing_data` and `immediate_actions`. -/
def cexDecisionC10 : PyDict :=
  [("missing_data", .list []), ("immediate_actions", .list []),
   ("confidence", .float (3 / 10))]

/-! Helper lemmas about the embedding. -/

theorem dget_dset_self (d : PyDict) (k : String) (v : Val) :
    dget (dset d k v) k = some v := by
  induction d with
  | nil => simp [dget, dset]
  | cons kv rest ih =>
      obtain ⟨k', v'⟩ := kv
      by_cases h : k' = k
      · simp [dget, dset, h]
      · simp [dget, dset, h, ih]

theorem dget_dset_ne (d : PyDict) {k k' : String} (v : Val) (h : k' ≠ k) :
    dget (dset d k v) k' = dget d k' := by
  induction d with
  | nil =>
      simp only [dset, dget]
      rw [if_neg (fun hh => h hh.symm)]
  | cons kv rest ih =>
      obtain ⟨k0, v0⟩ := kv
      by_cases h0 : k0 = k
      · subst h0
        simp only [dset, if_pos rfl, dget]
        have hne : ¬k0 = k' := fun hh => h hh.symm
        rw [if_neg hne, if_neg hne]
      · simp only [dset, if_neg h0, dget]
        by_cases h1 : k0 = k'
        · rw [if_pos h1, if_pos h1]
        · rw [if_neg h1, if_neg h1, ih]

theorem dset_eq_of_dget {d : PyDict} {k : String} {v : Val}
    (h : dget d k = some v) : dset d k v = d := by
  induction d with
  | nil => simp [dget] at h
  | cons kv rest ih =>
      obtain ⟨k0, v0⟩ := kv
      by_cases h0 : k0 = k
      · subst h0
        simp [dget] at h
        simp [dset, h]
      · simp [dget, h0] at h
        simp [dset, h0, ih h]

theorem clamp01_nonneg (q : ℚ) : 0 ≤ clamp01 q := le_max_left _ _

theorem clamp01_le_one (q : ℚ) : clamp01 q ≤ 1 := by
  unfold clamp01
  have : min 1 q ≤ 1 := min_le_left _ _
  exact max_le (by norm_num) this

theorem clamp01_mono {a b : ℚ} (h : a ≤ b) : clamp01 a ≤ clamp01 b := by
  unfold clamp01
  exact max_le_max le_rfl (min_le_min le_rfl h)

theorem clamp01_of_nonneg {q : ℚ} (h : 0 ≤ q) : clamp01 q = min 1 q := by
  unfold clamp01
  exact max_eq_right (le_min (by norm_num) h)

theorem le_pyRoundInt (q : ℚ) : ⌊q⌋ ≤ pyRoundInt q := by
  unfold pyRoundInt
  split_ifs <;> omega

theorem pyRoundInt_le (q : ℚ) : pyRoundInt q ≤ ⌊q⌋ + 1 := by
  unfold pyRoundInt
  split_ifs <;> omega

theorem pyRoundInt_mono {x y : ℚ} (h : x ≤ y) :
    pyRoundInt x ≤ pyRoundInt y := by
  have hf : ⌊x⌋ ≤ ⌊y⌋ := Int.floor_le_floor h
  rcases lt_or_eq_of_le hf with hlt | heq
  · calc pyRoundInt x ≤ ⌊x⌋ + 1 := pyRoundInt_le x
    _ ≤ ⌊y⌋ := by omega
    _ ≤ pyRoundInt y := le_pyRoundInt y
  · have hcast : ((⌊x⌋ : ℤ) : ℚ) = ((⌊y⌋ : ℤ) : ℚ) := by exact_mod_cast heq
    unfold pyRoundInt
    split_ifs <;> first | omega | linarith

theorem pyRoundInt_intCast (n : ℤ) : pyRoundInt (n : ℚ) = n := by
  simp [pyRoundInt]

theorem round4_mono {x y : ℚ} (h : x ≤ y) : round4 x ≤ round4 y := by
  unfold round4
  have h1 : x * 10000 ≤ y * 10000 := by linarith
  have h2 : pyRoundInt (x * 10000) ≤ pyRoundInt (y * 10000) :=
    pyRoundInt_mono h1
  have h3 : ((pyRoundInt (x * 10000) : ℤ) : ℚ) ≤
      ((pyRoundInt (y * 10000) : ℤ) : ℚ) := by exact_mod_cast h2
  linarith

theorem round4_zero : round4 0 = 0 := by
  unfold round4
  have h : (0 : ℚ) * 10000 = ((0 : ℤ) : ℚ) := by norm_num
  rw [h, pyRoundInt_intCast]
  norm_num

theorem round4_one : round4 1 = 1 := by
  unfold round4
  have h : (1 : ℚ) * 10000 = ((10000 : ℤ) : ℚ) := by norm_num
  rw [h, pyRoundInt_intCast]
  norm_num

theorem round4_nonneg {q : ℚ} (h : 0 ≤ q) : 0 ≤ round4 q := by
  have h0 : round4 0 ≤ round4 q := round4_mono h
  rw [round4_zero] at h0
  exact h0

theorem round4_le_one {q : ℚ} (h : q ≤ 1) : round4 q ≤ 1 := by
  have h0 : round4 q ≤ round4 1 := round4_mono h
  rw [round4_one] at h0
  exact h0

theorem pyEq_str_refl (s : String) : pyEq (.str s) (.str s) = true := by
  simp [pyEq]

theorem pyElem_append (v : Val) (xs ys : List Val) :
    pyElem v (xs ++ ys) = (pyElem v xs || pyElem v ys) := by
  simp [pyElem, List.any_append]

theorem pyElem_singleton (v x : Val) : pyElem v [x] = pyEq v x := by
  simp [pyElem]

theorem pyElem_self_singleton (s : String) :
    pyElem (.str s) [.str s] = true := by
  rw [pyElem_singleton, pyEq_str_refl]

theorem pyElem_appendNew_mono {v : Val} {xs : List Val} (ns : List String)
    (h : pyElem v xs = true) : pyElem v (appendNew xs ns) = true := by
  induction ns generalizing xs with
  | nil => exact h
  | cons n ns ih =>
      unfold appendNew
      by_cases hn : pyElem (.str n) xs
      · rw [if_pos hn]
        exact ih h
      · rw [if_neg hn]
        apply ih
        rw [pyElem_append, h, Bool.true_or]

theorem pyElem_appendNew_of_mem {n : String} {ns : List String}
    (xs : List Val) (h : n ∈ ns) :
    pyElem (.str n) (appendNew xs ns) = true := by
  induction ns generalizing xs with
  | nil => cases h
  | cons n0 ns ih =>
      unfold appendNew
      rcases List.mem_cons.mp h with h0 | h0
      · subst h0
        by_cases hn : pyElem (.str n) xs
        · rw [if_pos hn]
          exact pyElem_appendNew_mono ns hn
        · rw [if_neg hn]
          apply pyElem_appendNew_mono
          rw [pyElem_append, pyElem_self_singleton, Bool.or_true]
      · by_cases hn : pyElem (.str n0) xs
        · rw [if_pos hn]
          exact ih _ h0
        · rw [if_neg hn]
          exact ih _ h0

theorem appendNew_idem (xs : List Val) (ns : List String) :
    appendNew (appendNew xs ns) ns = appendNew xs ns := by
  have key : ∀ (ms ns : List String) (ys : List Val),
      (∀ n ∈ ms, pyElem (.str n) ys = true) → appendNew ys ms = ys := by
    intro ms
    induction ms with
    | nil => intro _ _ _; rfl
    | cons n ms ih =>
        intro ns ys hmem
        unfold appendNew
        rw [if_pos (hmem n (List.mem_cons_self _ _))]
        exact ih ns ys (fun m hm => hmem m (List.mem_cons_of_mem _ hm))
  exact key ns ns _ (fun n hn => pyElem_appendNew_of_mem xs hn)

theorem appendNew_eq_filter {ns : List String} (xs : List Val)
    (hd : ns.Pairwise (· ≠ ·)) :
    appendNew xs ns =
      xs ++ (ns.filter (fun n => !pyElem (.str n) xs)).map Val.str := by
  induction ns generalizing xs with
  | nil => simp [appendNew]
  | cons n ns ih =>
      have hne : ∀ m ∈ ns, n ≠ m := (List.pairwise_cons.mp hd).1
      have hdns : ns.Pairwise (· ≠ ·) := (List.pairwise_cons.mp hd).2
      unfold appendNew
      by_cases hn : pyElem (.str n) xs
      · rw [if_pos hn, ih _ hdns]
        simp [List.filter_cons, hn]
      · rw [if_neg hn, ih _ hdns]
        have hfilt : ∀ m ∈ ns,
            (!pyElem (Val.str m) (xs ++ [Val.str n])) =
              (!pyElem (Val.str m) xs) := by
          intro m hm
          rw [pyElem_append]
          have hone : pyElem (Val.str m) [Val.str n] = false := by
            rw [pyElem_singleton]
            simp [pyEq]
            exact fun hh => (hne m hm) hh.symm
          rw [hone, Bool.or_false]
        rw [List.filter_congr hfilt]
        simp [List.filter_cons, hn]

theorem immAppended_elem (ys : List Val) :
    pyElem (.str extraAction) (immAppended ys) = true := by
  unfold immAppended
  by_cases h : pyElem (.str extraAction) ys
  · rw [if_pos h]
    exact h
  · rw [if_neg h, pyElem_append, pyElem_self_singleton, Bool.or_true]

theorem immAppended_idem (ys : List Val) :
    immAppended (immAppended ys) = immAppended ys := by
  unfold immAppended
  rw [if_pos]
  exact immAppended_elem ys

theorem likelyCat_ne_empty (t : String) : ("Likely: " ++ t) ≠ "" := by
  intro h
  have hd : "Likely: ".data ++ t.data = ("" : String).data := by
    rw [← String.data_append, h]
  have h8 : "Likely: ".data = [] := (List.append_eq_nil.mp hd).1
  exact absurd h8 (by decide)

theorem lowerStartsLikely_cat (t : String) :
    lowerStartsLikely ("Likely: " ++ t) = true := by
  unfold lowerStartsLikely
  rw [String.data_append, List.map_append]
  have h1 : "Likely: ".data.map Char.toLower = "likely: ".data := by decide
  rw [h1]
  rw [List.isPrefixOf_iff_prefix]
  exact List.IsPrefix.trans (by decide) (List.prefix_append _ _)

/-! Lookup lemmas for the guardrail steps. -/

theorem dget_confBase_raw (d : PyDict) (m : ConfMeta) :
    dget (confBase d m) "confidence_raw" = some (.float m.llm_conf) := by
  unfold confBase
  rw [dget_dset_ne _ _ (by decide), dget_dset_ne _ _ (by decide),
    dget_dset_ne _ _ (by decide), dget_dset_self]

theorem dget_confBase_conf (d : PyDict) (m : ConfMeta) :
    dget (confBase d m) "confidence" = some (.float m.calibrated) := by
  unfold confBase
  rw [dget_dset_ne _ _ (by decide), dget_dset_ne _ _ (by decide),
    dget_dset_self]

theorem dget_confBase_cal (d : PyDict) (m : ConfMeta) :
    dget (confBase d m) "confidence_calibrated" = some (.float m.calibrated) := by
  unfold confBase
  rw [dget_dset_ne _ _ (by decide), dget_dset_self]

theorem dget_confBase_mode (d : PyDict) (m : ConfMeta) :
    dget (confBase d m) "guardrail_mode" = some (.bool (guardrailOn m)) := by
  unfold confBase
  rw [dget_dset_self]

theorem dget_confBase_other (d : PyDict) (m : ConfMeta) {k : String}
    (h1 : k ≠ "confidence_raw") (h2 : k ≠ "confidence")
    (h3 : k ≠ "confidence_calibrated") (h4 : k ≠ "guardrail_mode") :
    dget (confBase d m) k = dget d k := by
  unfold confBase
  rw [dget_dset_ne _ _ h4, dget_dset_ne _ _ h3, dget_dset_ne _ _ h2,
    dget_dset_ne _ _ h1]

theorem dget_guardStepRc_ne (out : PyDict) {k : String}
    (h : k ≠ "root_cause") : dget (guardStepRc out) k = dget out k := by
  unfold guardStepRc
  by_cases hc : lowerStartsLikely (guardRcText (dgetV out "root_cause"))
  · rw [if_pos hc]
  · rw [if_neg hc, dget_dset_ne _ _ h]

theorem dget_guardStepMissing_ne (out : PyDict) {k : String}
    (h : k ≠ "missing_data") :
    dget (guardStepMissing out) k = dget out k := by
  unfold guardStepMissing
  rw [dget_dset_ne _ _ h]

theorem dget_guardStepMissing_self (out : PyDict) :
    dget (guardStepMissing out) "missing_data" =
      some (.list (appendNew (asListOr (dgetV out "missing_data"))
        neededItems)) := by
  unfold guardStepMissing
  rw [dget_dset_self]

theorem dget_guardStepImmediate_ne (out : PyDict) {k : String}
    (h : k ≠ "immediate_actions") :
    dget (guardStepImmediate out) k = dget out k := by
  unfold guardStepImmediate
  rw [dget_dset_ne _ _ h]

theorem dget_guardStepImmediate_self (out : PyDict) :
    dget (guardStepImmediate out) "immediate_actions" =
      some (.list (immAppended (immListOf
        (dgetV out "immediate_actions")))) := by
  unfold guardStepImmediate
  rw [dget_dset_self]

theorem confBase_eq_self {X : PyDict} {m : ConfMeta}
    (h1 : dget X "confidence_raw" = some (.float m.llm_conf))
    (h2 : dget X "confidence" = some (.float m.calibrated))
    (h3 : dget X "confidence_calibrated" = some (.float m.calibrated))
    (h4 : dget X "guardrail_mode" = some (.bool (guardrailOn m))) :
    confBase X m = X := by
  unfold confBase
  rw [dset_eq_of_dget h1, dset_eq_of_dget h2, dset_eq_of_dget h3,
    dset_eq_of_dget h4]

theorem truthy_likelyCat (t : String) :
    truthy (Val.str ("Likely: " ++ t)) = true := by
  simp [truthy]
  exact likelyCat_ne_empty t

theorem pyStr_str (s : String) : pyStr (.str s) = s := by
  simp [pyStr]

theorem guardRcText_likelyCat (t : String) :
    guardRcText (Val.str ("Likely: " ++ t)) = "Likely: " ++ t := by
  unfold guardRcText
  rw [if_pos (truthy_likelyCat t)]
  exact pyStr_str _

theorem guardStepRc_stable {X C : PyDict}
    (hX : dget X "root_cause" = dget (guardStepRc C) "root_cause") :
    guardStepRc X = X := by
  by_cases hc : lowerStartsLikely (guardRcText (dgetV C "root_cause")) = true
  · have hid : guardStepRc C = C := by
      unfold guardStepRc
      rw [if_pos hc]
    rw [hid] at hX
    have hv : dgetV X "root_cause" = dgetV C "root_cause" := by
      unfold dgetV
      rw [hX]
    unfold guardStepRc
    rw [hv, if_pos hc]
  · have hset : guardStepRc C = dset C "root_cause"
        (.str ("Likely: " ++ guardRcText (dgetV C "root_cause"))) := by
      unfold guardStepRc
      rw [if_neg hc]
    rw [hset, dget_dset_self] at hX
    have hv : dgetV X "root_cause" =
        .str ("Likely: " ++ guardRcText (dgetV C "root_cause")) := by
      unfold dgetV
      rw [hX]
      rfl
    unfold guardStepRc
    rw [hv, guardRcText_likelyCat, if_pos (lowerStartsLikely_cat _)]

theorem guardStepMissing_stable {X : PyDict} {L : List Val}
    (hX : dget X "missing_data" = some (.list (appendNew L neededItems))) :
    guardStepMissing X = X := by
  unfold guardStepMissing
  have hv : dgetV X "missing_data" = .list (appendNew L neededItems) := by
    unfold dgetV
    rw [hX]
    rfl
  rw [hv]
  have : asListOr (Val.list (appendNew L neededItems)) =
      appendNew L neededItems := rfl
  rw [this, appendNew_idem]
  exact dset_eq_of_dget (by rw [hX])

theorem guardStepImmediate_stable {X : PyDict} {L : List Val}
    (hX : dget X "immediate_actions" = some (.list (immAppended L))) :
    guardStepImmediate X = X := by
  unfold guardStepImmediate
  have hv : dgetV X "immediate_actions" = .list (immAppended L) := by
    unfold dgetV
    rw [hX]
    rfl
  rw [hv]
  have : immListOf (Val.list (immAppended L)) = immAppended L := rfl
  rw [this, immAppended_idem]
  exact dset_eq_of_dget (by rw [hX])

/-- Claim C4: the guardrail is idempotent — for every decision
dictionary `d` and confidence-metrics mapping `m`, applying
`apply_guardrail` to its own output with the same metrics returns that
output unchanged. -/
theorem C4_apply_guardrail_idempotent (d : PyDict) (m : ConfMeta) :
    apply_guardrail (apply_guardrail d m) m = apply_guardrail d m := by
  by_cases hg : guardrailOn m = true
  · have hout : apply_guardrail d m =
        guardStepImmediate (guardStepMissing (guardStepRc (confBase d m))) := by
      unfold apply_guardrail
      rw [if_pos hg]
    set C := confBase d m with hC
    set R := guardStepRc C with hR
    set M := guardStepMissing R with hM
    set I := guardStepImmediate M with hI
    have ha : confBase I m = I := by
      apply confBase_eq_self
      · rw [hI, dget_guardStepImmediate_ne _ (by decide), hM,
          dget_guardStepMissing_ne _ (by decide), hR,
          dget_guardStepRc_ne _ (by decide), hC, dget_confBase_raw]
      · rw [hI, dget_guardStepImmediate_ne _ (by decide), hM,
          dget_guardStepMissing_ne _ (by decide), hR,
          dget_guardStepRc_ne _ (by decide), hC, dget_confBase_conf]
      · rw [hI, dget_guardStepImmediate_ne _ (by decide), hM,
          dget_guardStepMissing_ne _ (by decide), hR,
          dget_guardStepRc_ne _ (by decide), hC, dget_confBase_cal]
      · rw [hI, dget_guardStepImmediate_ne _ (by decide), hM,
          dget_guardStepMissing_ne _ (by decide), hR,
          dget_guardStepRc_ne _ (by decide), hC, dget_confBase_mode]
    have hb : guardStepRc I = I := by
      apply guardStepRc_stable (C := C)
      rw [hI, dget_guardStepImmediate_ne _ (by decide), hM,
        dget_guardStepMissing_ne _ (by decide), hR]
    have hc : guardStepMissing I = I := by
      apply guardStepMissing_stable
        (L := asListOr (dgetV R "missing_data"))
      rw [hI, dget_guardStepImmediate_ne _ (by decide), hM,
        dget_guardStepMissing_self]
    have hd : guardStepImmediate I = I := by
      apply guardStepImmediate_stable
        (L := immListOf (dgetV M "immediate_actions"))
      rw [hI, dget_guardStepImmediate_self]
    rw [hout]
    show apply_guardrail I m = I
    unfold apply_guardrail
    rw [if_pos hg, ha, hb, hc, hd]
  · have hout : apply_guardrail d m = confBase d m := by
      unfold apply_guardrail
      rw [if_neg hg]
    rw [hout]
    unfold apply_guardrail
    rw [if_neg hg]
    apply confBase_eq_self
    · exact dget_confBase_raw d m
    · exact dget_confBase_conf d m
    · exact dget_confBase_cal d m
    · exact dget_confBase_mode d m

theorem calibrate_eq_blend (d : PyDict) (gs : List PyDict)
    (es : List Val) :
    (calibrate_confidence d gs es).calibrated =
      calibratedBlend (llm_conf_of d) (anomaly_of es) (corr_density_of gs)
        (completeness_of d gs es) := rfl

/-- Claim C3: the calibrated confidence is always in `[0,1]`, it is the
blend `calibratedBlend` of the four inputs computed by
`calibrate_confidence`, and that blend is monotonically non-decreasing
in each input separately. -/
theorem C3_calibrated_range_monotone :
    (∀ (d : PyDict) (gs : List PyDict) (es : List Val),
      0 ≤ (calibrate_confidence d gs es).calibrated ∧
        (calibrate_confidence d gs es).calibrated ≤ 1) ∧
    (∀ (d : PyDict) (gs : List PyDict) (es : List Val),
      (calibrate_confidence d gs es).calibrated =
        calibratedBlend (llm_conf_of d) (anomaly_of es)
          (corr_density_of gs) (completeness_of d gs es)) ∧
    (∀ l l' a c k : ℚ, l ≤ l' →
      calibratedBlend l a c k ≤ calibratedBlend l' a c k) ∧
    (∀ l a a' c k : ℚ, a ≤ a' →
      calibratedBlend l a c k ≤ calibratedBlend l a' c k) ∧
    (∀ l a c c' k : ℚ, c ≤ c' →
      calibratedBlend l a c k ≤ calibratedBlend l a c' k) ∧
    (∀ l a c k k' : ℚ, k ≤ k' →
      calibratedBlend l a c k ≤ calibratedBlend l a c k') := by
  refine ⟨?_, ?_, ?_, ?_, ?_, ?_⟩
  · intro d gs es
    rw [calibrate_eq_blend]
    unfold calibratedBlend
    exact ⟨round4_nonneg (clamp01_nonneg _), round4_le_one (clamp01_le_one _)⟩
  · intro d gs es
    exact calibrate_eq_blend d gs es
  · intro l l' a c k h
    exact round4_mono (clamp01_mono (by linarith))
  · intro l a a' c k h
    exact round4_mono (clamp01_mono (by linarith))
  · intro l a c c' k h
    exact round4_mono (clamp01_mono (by linarith))
  · intro l a c k k' h
    exact round4_mono (clamp01_mono (by linarith))

/-- Witness for claim C3 at concrete inputs: the range conjunct at the
empty inputs and each monotonicity conjunct at `0 ≤ 1`. -/
theorem C3_witness :
    (0 ≤ (calibrate_confidence [] [] []).calibrated ∧
      (calibrate_confidence [] [] []).calibrated ≤ 1) ∧
    calibratedBlend 0 0 0 0 ≤ calibratedBlend 1 0 0 0 ∧
    calibratedBlend 0 0 0 0 ≤ calibratedBlend 0 1 0 0 ∧
    calibratedBlend 0 0 0 0 ≤ calibratedBlend 0 0 1 0 ∧
    calibratedBlend 0 0 0 0 ≤ calibratedBlend 0 0 0 1 := by
  have h := C3_calibrated_range_monotone
  exact ⟨h.1 [] [] [],
    h.2.2.1 0 1 0 0 0 (by norm_num),
    h.2.2.2.1 0 0 1 0 0 (by norm_num),
    h.2.2.2.2.1 0 0 0 1 0 (by norm_num),
    h.2.2.2.2.2 0 0 0 0 1 (by norm_num)⟩

theorem anomaly_of_eq (es : List Val) :
    anomaly_of es = clamp01 (specAnomaly es) := by
  unfold anomaly_of specAnomaly
  cases es with
  | nil => simp [listMaxD, clamp01]
  | cons e es => simp [List.isEmpty]

theorem corr_of_eq (gs : List PyDict)
    (h : ∀ g ∈ gs, ∃ xs, dgetV g "matched_uptime" = Val.list xs) :
    corr_density_of gs = specCorrDensity gs := by
  unfold corr_density_of specCorrDensity
  cases gs with
  | nil => rfl
  | cons g gs' =>
      simp only [List.isEmpty_cons, Bool.false_eq_true, if_false]
      have hfilt : ∀ x ∈ g :: gs',
          truthy (dgetV x "matched_uptime") =
            (match dgetV x "matched_uptime" with
             | Val.list xs => !xs.isEmpty
             | _ => false) := by
        intro x hx
        obtain ⟨xs, hxs⟩ := h x hx
        rw [hxs]
        rfl
      rw [List.filter_congr ?_]
      · have hmax : (max 1 (g :: gs').length : ℕ) = (g :: gs').length := by
          simp [Nat.max_eq_right, Nat.succ_le_of_lt]
        rw [hmax]
      · intro x hx
        exact hfilt x hx

/-- Counterexample to claim C2 as stated: at a stage confidence of
`0.3333` and one enrichment with `host_anomaly_score = 2.0`, the code's
calibrated value (rounded to four decimals, anomaly clamped) differs
from the claim's exact weighted-sum formula. -/
theorem C2_counterexample :
    (calibrate_confidence cexDecisionC2 [] cexEnrichC2).calibrated ≠
      specCalibratedC2 cexDecisionC2 [] cexEnrichC2 := by
  have h1 : (calibrate_confidence cexDecisionC2 [] cexEnrichC2).calibrated =
      4133 / 10000 := by
    rw [calibrate_eq_blend]
    simp only [calibratedBlend, llm_conf_of, anomaly_of, corr_density_of,
      completeness_of, cexDecisionC2, cexEnrichC2, dgetV, dget, safe_float,
      listMaxD, truthy, List.filterMap, List.isEmpty, Option.getD,
      List.filter, List.length, List.foldl, reduceIte, String.reduceEq]
    norm_num [clamp01, round4, pyRoundInt]
  have h2 : specCalibratedC2 cexDecisionC2 [] cexEnrichC2 =
      66332 / 100000 := by
    simp only [specCalibratedC2, specAnomaly, specCorrDensity,
      specCompleteness, cexDecisionC2, cexEnrichC2, dgetV, dget, safe_float,
      listMaxD, truthy, List.filterMap, List.isEmpty, Option.getD,
      List.filter, List.length, List.foldl, reduceIte, String.reduceEq]
    norm_num [clamp01]
  rw [h1, h2]
  norm_num

/-- Claim C2 (amended): for well-formed groups (list-valued
`matched_uptime`, as the correlator produces), the calibrated
confidence equals the stated weighted sum with the anomaly input
additionally clamped to `[0,1]`, the whole clamped to `[0,1]` and then
rounded half-to-even to four decimal places. -/
theorem C2_calibrated_formula (d : PyDict) (gs : List PyDict)
    (es : List Val)
    (h : ∀ g ∈ gs, ∃ xs, dgetV g "matched_uptime" = Val.list xs) :
    (calibrate_confidence d gs es).calibrated =
      round4 (clamp01
        ((40 / 100) * clamp01 (safe_float (dgetV d "confidence") (5 / 10)) +
         (25 / 100) * clamp01 (specAnomaly es) +
         (20 / 100) * specCorrDensity gs +
         (15 / 100) * specCompleteness d gs es)) := by
  rw [calibrate_eq_blend]
  unfold calibratedBlend
  apply congrArg round4
  apply congrArg clamp01
  rw [anomaly_of_eq es, corr_of_eq gs h]
  unfold llm_conf_of completeness_of specCompleteness
  ring_nf

/-- Witness for claim C2 (amended) at concrete inputs. -/
theorem C2_witness :
    (calibrate_confidence scenDecisionC1 [witGroup] []).calibrated =
      round4 (clamp01
        ((40 / 100) * clamp01 (safe_float (dgetV scenDecisionC1 "confidence") (5 / 10)) +
         (25 / 100) * clamp01 (specAnomaly []) +
         (20 / 100) * specCorrDensity [witGroup] +
         (15 / 100) * specCompleteness scenDecisionC1 [witGroup] [])) := by
  apply C2_calibrated_formula
  intro g hg
  have : g = witGroup := by
    simpa using hg
  rw [this]
  exact ⟨[.int 1], rfl⟩

theorem dgetV_confBase_rc (d : PyDict) (m : ConfMeta) :
    dgetV (confBase d m) "root_cause" = dgetV d "root_cause" := by
  unfold dgetV
  rw [dget_confBase_other _ _ (by decide) (by decide) (by decide) (by decide)]

theorem guardRcText_str {s : String} (h : s ≠ "") :
    guardRcText (.str s) = s := by
  unfold guardRcText
  rw [if_pos (by simp [truthy, h])]
  exact pyStr_str s

theorem guardrail_mode_out (d : PyDict) (m : ConfMeta) :
    dgetV (apply_guardrail d m) "guardrail_mode" =
      .bool (guardrailOn m) := by
  unfold apply_guardrail dgetV
  by_cases hg : guardrailOn m = true
  · rw [if_pos hg, dget_guardStepImmediate_ne _ (by decide),
      dget_guardStepMissing_ne _ (by decide),
      dget_guardStepRc_ne _ (by decide), dget_confBase_mode]
    rfl
  · rw [if_neg hg, dget_confBase_mode]
    rfl

theorem guardrail_rc_out (d : PyDict) (m : ConfMeta)
    (hg : guardrailOn m = true) :
    if lowerStartsLikely (guardRcText (dgetV d "root_cause")) then
      dget (apply_guardrail d m) "root_cause" = dget d "root_cause"
    else
      dgetV (apply_guardrail d m) "root_cause" =
        .str ("Likely: " ++ guardRcText (dgetV d "root_cause")) := by
  unfold apply_guardrail
  rw [if_pos hg]
  by_cases hc : lowerStartsLikely (guardRcText (dgetV d "root_cause")) = true
  · rw [if_pos hc]
    have hRC : guardStepRc (confBase d m) = confBase d m := by
      unfold guardStepRc
      rw [dgetV_confBase_rc, if_pos hc]
    rw [dget_guardStepImmediate_ne _ (by decide),
      dget_guardStepMissing_ne _ (by decide), hRC,
      dget_confBase_other _ _ (by decide) (by decide) (by decide) (by decide)]
  · rw [if_neg hc]
    have hRC : guardStepRc (confBase d m) = dset (confBase d m) "root_cause"
        (.str ("Likely: " ++ guardRcText (dgetV d "root_cause"))) := by
      unfold guardStepRc
      rw [dgetV_confBase_rc, if_neg hc]
    unfold dgetV
    rw [dget_guardStepImmediate_ne _ (by decide),
      dget_guardStepMissing_ne _ (by decide), hRC, dget_dset_self]
    rfl

theorem neededItems_pairwise : neededItems.Pairwise (· ≠ ·) := by
  unfold neededItems
  refine List.Pairwise.cons ?_ (List.Pairwise.cons ?_ ?_) <;> simp

theorem dgetV_preSteps_md (d : PyDict) (m : ConfMeta) :
    dgetV (guardStepRc (confBase d m)) "missing_data" =
      dgetV d "missing_data" := by
  unfold dgetV
  rw [dget_guardStepRc_ne _ (by decide),
    dget_confBase_other _ _ (by decide) (by decide) (by decide) (by decide)]

theorem guardrail_md_out (d : PyDict) (m : ConfMeta)
    (hg : guardrailOn m = true) :
    dgetV (apply_guardrail d m) "missing_data" =
      .list (asListOr (dgetV d "missing_data") ++
        (neededItems.filter (fun n =>
          !pyElem (.str n) (asListOr (dgetV d "missing_data")))).map
            Val.str) := by
  unfold apply_guardrail
  rw [if_pos hg]
  unfold dgetV
  rw [dget_guardStepImmediate_ne _ (by decide), dget_guardStepMissing_self]
  rw [dgetV_preSteps_md d m]
  rw [appendNew_eq_filter _ neededItems_pairwise]
  rfl

theorem dgetV_preSteps_ia (d : PyDict) (m : ConfMeta) :
    dgetV (guardStepMissing (guardStepRc (confBase d m)))
      "immediate_actions" = dgetV d "immediate_actions" := by
  unfold dgetV
  rw [dget_guardStepMissing_ne _ (by decide),
    dget_guardStepRc_ne _ (by decide),
    dget_confBase_other _ _ (by decide) (by decide) (by decide) (by decide)]

theorem guardrail_ia_out (d : PyDict) (m : ConfMeta)
    (hg : guardrailOn m = true) :
    dgetV (apply_guardrail d m) "immediate_actions" =
      .list (immAppended (immListOf (dgetV d "immediate_actions"))) := by
  unfold apply_guardrail
  rw [if_pos hg]
  unfold dgetV
  rw [dget_guardStepImmediate_self, dgetV_preSteps_ia d m]
  rfl

theorem scen_calibrate_eval :
    (calibrate_confidence scenDecisionC1 [] []).calibrated = 12 / 100 ∧
      (calibrate_confidence scenDecisionC1 [] []).completeness = 0 := by
  constructor
  · rw [calibrate_eq_blend]
    simp only [calibratedBlend, llm_conf_of, anomaly_of, corr_density_of,
      completeness_of, scenDecisionC1, dgetV, dget, safe_float, listMaxD,
      truthy, List.filterMap, List.isEmpty, Option.getD, List.filter,
      List.length, List.foldl, reduceIte, String.reduceEq]
    norm_num [clamp01, round4, pyRoundInt]
  · show round4 (completeness_of scenDecisionC1 [] []) = 0
    simp only [completeness_of, scenDecisionC1, dgetV, dget, truthy,
      List.isEmpty, Option.getD, reduceIte, String.reduceEq]
    norm_num [round4_zero]

theorem scen_guardrailOn :
    guardrailOn (calibrate_confidence scenDecisionC1 [] []) = true := by
  unfold guardrailOn
  rw [scen_calibrate_eval.1, scen_calibrate_eval.2]
  norm_num

/-- Claim C1 (amended): the guardrail engages exactly when
`calibrated < 0.45` or `completeness < 0.35`; when engaged it (a)
prefixes the root-cause text with `"Likely: "` unless the text already
starts with `"likely"` case-insensitively (the comparison the code
makes, rather than the exact prefix `"Likely: "`); (b) appends the
three standard missing-data items without duplicates; (c) appends the
standard collect-missing-data item to the immediate actions.  In the
concrete scenario (confidence 0.3, nothing else present) completeness
is `0 ≤ 0.4`, the guardrail engages, the root cause becomes
`"Likely: "` followed by the default text, and the three standard
items are appended. -/
theorem C1_guardrail_contract :
    (∀ (d : PyDict) (m : ConfMeta),
      dgetV (apply_guardrail d m) "guardrail_mode" = .bool (guardrailOn m) ∧
      (guardrailOn m = true ↔
        (m.calibrated < 45 / 100 ∨ m.completeness < 35 / 100))) ∧
    (∀ (d : PyDict) (m : ConfMeta), guardrailOn m = true →
      if lowerStartsLikely (guardRcText (dgetV d "root_cause")) then
        dget (apply_guardrail d m) "root_cause" = dget d "root_cause"
      else
        dgetV (apply_guardrail d m) "root_cause" =
          .str ("Likely: " ++ guardRcText (dgetV d "root_cause"))) ∧
    (∀ (d : PyDict) (m : ConfMeta), guardrailOn m = true →
      dgetV (apply_guardrail d m) "missing_data" =
        .list (asListOr (dgetV d "missing_data") ++
          (neededItems.filter (fun n =>
            !pyElem (.str n) (asListOr (dgetV d "missing_data")))).map
              Val.str)) ∧
    (∀ (d : PyDict) (m : ConfMeta), guardrailOn m = true →
      dgetV (apply_guardrail d m) "immediate_actions" =
        .list (immAppended (immListOf (dgetV d "immediate_actions"))) ∧
      pyElem (.str extraAction)
        (immAppended (immListOf (dgetV d "immediate_actions"))) = true) ∧
    ((calibrate_confidence scenDecisionC1 [] []).completeness ≤ 4 / 10 ∧
      guardrailOn (calibrate_confidence scenDecisionC1 [] []) = true ∧
      dgetV (apply_guardrail scenDecisionC1
        (calibrate_confidence scenDecisionC1 [] [])) "root_cause" =
        .str ("Likely: " ++ defaultRootCause) ∧
      dgetV (apply_guardrail scenDecisionC1
        (calibrate_confidence scenDecisionC1 [] [])) "missing_data" =
        .list (neededItems.map Val.str)) := by
  refine ⟨?_, ?_, ?_, ?_, ?_⟩
  · intro d m
    refine ⟨guardrail_mode_out d m, ?_⟩
    unfold guardrailOn
    simp [Bool.or_eq_true, decide_eq_true_eq]
  · intro d m hg
    exact guardrail_rc_out d m hg
  · intro d m hg
    exact guardrail_md_out d m hg
  · intro d m hg
    exact ⟨guardrail_ia_out d m hg, immAppended_elem _⟩
  · refine ⟨?_, scen_guardrailOn, ?_, ?_⟩
    · rw [scen_calibrate_eval.2]
      norm_num
    · have h := guardrail_rc_out scenDecisionC1 _ scen_guardrailOn
      have hd : dgetV scenDecisionC1 "root_cause" = Val.null := rfl
      have hnull : guardRcText Val.null = defaultRootCause := by
        unfold guardRcText
        rw [if_neg (by simp [truthy])]
        exact pyStr_str _
      rw [hd, hnull] at h
      have hlsl : lowerStartsLikely defaultRootCause = false := by decide
      rw [hlsl] at h
      simpa using h
    · have h := guardrail_md_out scenDecisionC1 _ scen_guardrailOn
      have hmd : asListOr (dgetV scenDecisionC1 "missing_data") = [] := rfl
      rw [hmd] at h
      rw [h]
      simp [pyElem]

/-- Counterexample to claim C1 as stated: with a root cause of
`"likely full disk"` the guardrail engages, the text does not start
with the prefix `"Likely: "`, yet `apply_guardrail` leaves it
unprefixed, because the code only checks a case-insensitive
`"likely"`. -/
theorem C1_counterexample :
    guardrailOn (calibrate_confidence cexDecisionC1 [] []) = true ∧
    (∀ t : String, "likely full disk" ≠ "Likely: " ++ t) ∧
    dgetV (apply_guardrail cexDecisionC1
      (calibrate_confidence cexDecisionC1 [] [])) "root_cause" =
      .str "likely full disk" := by
  have hcal : (calibrate_confidence cexDecisionC1 [] []).calibrated =
      15 / 100 := by
    have hne : ("likely full disk" = "") = False := eq_false (by decide)
    rw [calibrate_eq_blend]
    simp only [calibratedBlend, llm_conf_of, anomaly_of, corr_density_of,
      completeness_of, cexDecisionC1, dgetV, dget, safe_float, listMaxD,
      truthy, List.filterMap, List.isEmpty, Option.getD, List.filter,
      List.length, List.foldl, reduceIte, String.reduceEq, hne]
    norm_num [clamp01, round4, pyRoundInt, hne]
  have hg : guardrailOn (calibrate_confidence cexDecisionC1 [] []) = true := by
    unfold guardrailOn
    rw [hcal]
    norm_num
  refine ⟨hg, ?_, ?_⟩
  · intro t h
    have hd : "likely full disk".data =
        "Likely: ".data ++ t.data := by
      rw [← String.data_append, h]
    have h8 := congrArg (List.take "Likely: ".data.length) hd
    rw [List.take_left] at h8
    exact absurd h8 (by decide)
  · have h := guardrail_rc_out cexDecisionC1 _ hg
    have hd : dgetV cexDecisionC1 "root_cause" =
        Val.str "likely full disk" := rfl
    have hrc : guardRcText (Val.str "likely full disk") =
        "likely full disk" := guardRcText_str (by decide)
    rw [hd, hrc] at h
    have hlsl : lowerStartsLikely "likely full disk" = true := by decide
    rw [hlsl] at h
    simp only [if_true] at h
    unfold dgetV
    rw [h]
    exact hd

/-- Witness for claim C1 (amended) at the concrete scenario decision,
with the guardrail-engaged hypothesis discharged concretely. -/
theorem C1_witness :
    dgetV (apply_guardrail scenDecisionC1
      (calibrate_confidence scenDecisionC1 [] [])) "missing_data" =
      .list (asListOr (dgetV scenDecisionC1 "missing_data") ++
        (neededItems.filter (fun n =>
          !pyElem (.str n)
            (asListOr (dgetV scenDecisionC1 "missing_data")))).map
              Val.str) := by
  exact C1_guardrail_contract.2.2.1 scenDecisionC1 _ scen_guardrailOn

/-! Lemmas about the series statistics. -/

theorem foldl_min_le_foldl_max (rest : List ℚ) :
    ∀ {a b : ℚ}, a ≤ b → rest.foldl min a ≤ rest.foldl max b := by
  induction rest with
  | nil => intro a b h; exact h
  | cons x xs ih =>
      intro a b h
      exact ih (le_trans (min_le_left a x) (le_trans h (le_max_left b x)))

theorem listMinH_le_listMaxH (p : ℚ) (rest : List ℚ) :
    listMinH p rest ≤ listMaxH p rest :=
  foldl_min_le_foldl_max rest le_rfl

theorem foldl_min_const {v : ℚ} (rest : List ℚ)
    (h : ∀ x ∈ rest, x = v) : rest.foldl min v = v := by
  induction rest with
  | nil => rfl
  | cons x xs ih =>
      have hx : x = v := h x (List.mem_cons_self _ _)
      simp only [List.foldl, hx, min_self]
      exact ih (fun y hy => h y (List.mem_cons_of_mem _ hy))

theorem foldl_max_const {v : ℚ} (rest : List ℚ)
    (h : ∀ x ∈ rest, x = v) : rest.foldl max v = v := by
  induction rest with
  | nil => rfl
  | cons x xs ih =>
      have hx : x = v := h x (List.mem_cons_self _ _)
      simp only [List.foldl, hx, max_self]
      exact ih (fun y hy => h y (List.mem_cons_of_mem _ hy))

theorem lastH_const {v : ℚ} (rest : List ℚ)
    (h : ∀ x ∈ rest, x = v) : lastH v rest = v := by
  induction rest with
  | nil => rfl
  | cons x xs ih =>
      have hx : x = v := h x (List.mem_cons_self _ _)
      show lastH x xs = v
      rw [hx]
      exact ih (fun y hy => h y (List.mem_cons_of_mem _ hy))

theorem sum_const {v : ℚ} (l : List ℚ) (h : ∀ x ∈ l, x = v) :
    l.sum = v * l.length := by
  induction l with
  | nil => simp
  | cons x xs ih =>
      have hx : x = v := h x (List.mem_cons_self _ _)
      have := ih (fun y hy => h y (List.mem_cons_of_mem _ hy))
      simp only [List.sum_cons, List.length_cons, this, hx]
      push_cast
      ring

/-- Counterexample to claim C5 as stated: on the series `[0, 5]` the
source's anomaly score is `1.0` (when `first` is zero the raw
`|latest-first|` is used as the movement ratio) while the claim's
formula (movement `0` when `first` is zero) gives `0.4`. -/
theorem C5_counterexample :
    (summarize_series [0, 5]).anomaly_score ≠ specAnomalyScoreC5 0 [5] := by
  have h1 : (summarize_series [0, 5]).anomaly_score = 1 := by
    show (summarizeCons 0 [5]).anomaly_score = 1
    simp only [summarizeCons, listMinH, listMaxH, lastH, List.foldl,
      List.sum_cons, List.sum_nil, List.length]
    norm_num [round4, pyRoundInt, abs_eq_max_neg]
  have h2 : specAnomalyScoreC5 0 [5] = 2 / 5 := by
    simp only [specAnomalyScoreC5, specMovementC5, specVolC5, listMinH,
      listMaxH, lastH, List.foldl, List.sum_cons, List.sum_nil, List.length]
    norm_num [clamp01, round4, pyRoundInt, abs_eq_max_neg]
  rw [h1, h2]
  norm_num

/-- Claim C5 (amended): for every nonempty series, the anomaly score is
`round4(0.6·movement + 0.4·volatility)` where volatility is as the
claim states it, and movement is `clamp(|latest-first|/|first|, 0, 1)`
with a fallback of `clamp(|latest-first|, 0, 1)` — not `0` — when
`first` is zero. -/
theorem C5_anomaly_formula (p : ℚ) (rest : List ℚ) :
    (summarize_series (p :: rest)).anomaly_score =
      round4 ((6 / 10) * specMovementAmended p (lastH p rest) +
        (4 / 10) * specVolC5 (listMinH p rest) (listMaxH p rest)
          ((p :: rest).sum / ((p :: rest).length : ℚ))) := by
  show (summarizeCons p rest).anomaly_score = _
  simp only [summarizeCons]
  apply congrArg round4
  have hmove : min 1 (if p ≠ 0 then |lastH p rest - p| / |p| else
      |lastH p rest - p|) = specMovementAmended p (lastH p rest) := by
    unfold specMovementAmended
    by_cases hp : p = 0
    · rw [if_pos hp, if_neg (by simp [hp])]
    · rw [if_neg hp, if_pos hp,
        clamp01_of_nonneg (div_nonneg (abs_nonneg _) (abs_nonneg _))]
  have hvol : min 1 (if (p :: rest).sum / ((p :: rest).length : ℚ) ≠ 0 then
      (listMaxH p rest - listMinH p rest) /
        |(p :: rest).sum / ((p :: rest).length : ℚ)|
      else listMaxH p rest - listMinH p rest) =
      specVolC5 (listMinH p rest) (listMaxH p rest)
        ((p :: rest).sum / ((p :: rest).length : ℚ)) := by
    unfold specVolC5
    by_cases ha : (p :: rest).sum / ((p :: rest).length : ℚ) = 0
    · rw [if_pos ha, if_neg (not_not_intro ha)]
    · rw [if_neg ha, if_pos ha,
        clamp01_of_nonneg (div_nonneg
          (by linarith [listMinH_le_listMaxH p rest]) (abs_nonneg _))]
  rw [hmove, hvol]
  ring

/-- Witness for claim C5 (amended) on the concrete series `[0, 5]`. -/
theorem C5_witness :
    (summarize_series (0 :: [5])).anomaly_score =
      round4 ((6 / 10) * specMovementAmended 0 (lastH 0 [5]) +
        (4 / 10) * specVolC5 (listMinH 0 [5]) (listMaxH 0 [5])
          (((0 : ℚ) :: [5]).sum / (((0 : ℚ) :: [5]).length : ℚ))) :=
  C5_anomaly_formula 0 [5]

/-- Claim C6: the anomaly score of every summarised series lies in
`[0,1]`; a nonempty zero-variance series scores exactly 0; concretely,
`[10,10,10,10]` gives trend `stable`, delta 0 and score 0, while
`[10,12,40,42]` gives trend `up`, change 32 and a score above 0.6. -/
theorem C6_anomaly_range :
    (∀ pts : List ℚ, 0 ≤ (summarize_series pts).anomaly_score ∧
      (summarize_series pts).anomaly_score ≤ 1) ∧
    (∀ (pts : List ℚ) (v : ℚ), pts ≠ [] → (∀ x ∈ pts, x = v) →
      (summarize_series pts).anomaly_score = 0) ∧
    ((summarize_series [10, 10, 10, 10]).trend = "stable" ∧
      (summarize_series [10, 10, 10, 10]).delta = some 0 ∧
      (summarize_series [10, 10, 10, 10]).anomaly_score = 0) ∧
    ((summarize_series [10, 12, 40, 42]).trend = "up" ∧
      (summarize_series [10, 12, 40, 42]).change = some 32 ∧
      (6 / 10 : ℚ) < (summarize_series [10, 12, 40, 42]).anomaly_score) := by
  refine ⟨?_, ?_, ?_, ?_⟩
  · intro pts
    cases pts with
    | nil =>
        constructor <;> norm_num [summarize_series]
    | cons p rest =>
        show 0 ≤ (summarizeCons p rest).anomaly_score ∧
          (summarizeCons p rest).anomaly_score ≤ 1
        simp only [summarizeCons]
        have hcr : 0 ≤ (if p ≠ 0 then |lastH p rest - p| / |p| else
            |lastH p rest - p|) := by
          split_ifs
          · exact div_nonneg (abs_nonneg _) (abs_nonneg _)
          · exact abs_nonneg _
        have hdm : (0 : ℚ) ≤ listMaxH p rest - listMinH p rest := by
          linarith [listMinH_le_listMaxH p rest]
        have hvr : 0 ≤ (if (p :: rest).sum / ((p :: rest).length : ℚ) ≠ 0 then
            (listMaxH p rest - listMinH p rest) /
              |(p :: rest).sum / ((p :: rest).length : ℚ)|
            else listMaxH p rest - listMinH p rest) := by
          split_ifs
          · exact div_nonneg hdm (abs_nonneg _)
          · exact hdm
        have hm1 : min 1 (if p ≠ 0 then |lastH p rest - p| / |p| else
            |lastH p rest - p|) ≤ 1 := min_le_left _ _
        have hm0 : 0 ≤ min 1 (if p ≠ 0 then |lastH p rest - p| / |p| else
            |lastH p rest - p|) := le_min (by norm_num) hcr
        have hv1 : min 1 (if (p :: rest).sum / ((p :: rest).length : ℚ) ≠ 0 then
            (listMaxH p rest - listMinH p rest) /
              |(p :: rest).sum / ((p :: rest).length : ℚ)|
            else listMaxH p rest - listMinH p rest) ≤ 1 := min_le_left _ _
        have hv0 : 0 ≤ min 1 (if (p :: rest).sum / ((p :: rest).length : ℚ) ≠ 0 then
            (listMaxH p rest - listMinH p rest) /
              |(p :: rest).sum / ((p :: rest).length : ℚ)|
            else listMaxH p rest - listMinH p rest) := le_min (by norm_num) hvr
        constructor
        · exact round4_nonneg (by linarith)
        · exact round4_le_one (by linarith)
  · intro pts v hne hall
    cases pts with
    | nil => exact absurd rfl hne
    | cons p rest =>
        have hp : p = v := hall p (List.mem_cons_self _ _)
        subst hp
        have hrest : ∀ x ∈ rest, x = p :=
          fun x hx => hall x (List.mem_cons_of_mem _ hx)
        have hmin : listMinH p rest = p := foldl_min_const rest hrest
        have hmax : listMaxH p rest = p := foldl_max_const rest hrest
        have hlast : lastH p rest = p := lastH_const rest hrest
        show (summarizeCons p rest).anomaly_score = 0
        simp only [summarizeCons]
        rw [hmin, hmax, hlast]
        have h1 : (if p ≠ 0 then |p - p| / |p| else |p - p|) = 0 := by
          split_ifs <;> simp
        have h2 : (if (p :: rest).sum / ((p :: rest).length : ℚ) ≠ 0 then
            (p - p) / |(p :: rest).sum / ((p :: rest).length : ℚ)|
            else p - p) = 0 := by
          split_ifs <;> simp
        rw [h1, h2]
        norm_num [round4_zero]
  · refine ⟨?_, ?_, ?_⟩
    · show (summarizeCons 10 [10, 10, 10]).trend = "stable"
      simp only [summarizeCons, lastH]
      norm_num
    · show (summarizeCons 10 [10, 10, 10]).delta = some 0
      simp only [summarizeCons, listMinH, listMaxH, List.foldl]
      norm_num
    · show (summarizeCons 10 [10, 10, 10]).anomaly_score = 0
      simp only [summarizeCons, listMinH, listMaxH, lastH, List.foldl,
        List.sum_cons, List.sum_nil, List.length]
      norm_num [round4, pyRoundInt, abs_eq_max_neg]
  · refine ⟨?_, ?_, ?_⟩
    · show (summarizeCons 10 [12, 40, 42]).trend = "up"
      simp only [summarizeCons, lastH]
      norm_num
    · show (summarizeCons 10 [12, 40, 42]).change = some 32
      simp only [summarizeCons, lastH]
      norm_num
    · show (6 / 10 : ℚ) < (summarizeCons 10 [12, 40, 42]).anomaly_score
      have hval : (summarizeCons 10 [12, 40, 42]).anomaly_score = 1 := by
        simp only [summarizeCons, listMinH, listMaxH, lastH, List.foldl,
          List.sum_cons, List.sum_nil, List.length]
        norm_num [round4, pyRoundInt, abs_eq_max_neg]
      rw [hval]
      norm_num

/-- Witness for claim C6 on the concrete zero-variance series `[5,5]`,
discharging the nonemptiness and constancy hypotheses. -/
theorem C6_witness : (summarize_series [(5 : ℚ), 5]).anomaly_score = 0 := by
  apply C6_anomaly_range.2.1 [(5 : ℚ), 5] 5
  · simp
  · intro x hx
    simp only [List.mem_cons, List.mem_singleton] at hx
    rcases hx with h | h | h
    · exact h
    · exact h
    · cases h

theorem correlate_matched_shape {now : ℤ} {zbx upr : List PyDict}
    {g : Group} (hg : g ∈ correlate now zbx upr) :
    g.matched_uptime = (upEventsOf upr).filter
      (fun e => within_window g.zabbix_ts e.ts) := by
  unfold correlate at hg
  rw [List.mem_filterMap] at hg
  obtain ⟨z, _, hf⟩ := hg
  cases hts : zEventTs z with
  | none =>
      rw [hts] at hf
      simp at hf
  | some zts =>
      rw [hts] at hf
      by_cases hlb : zts < now - LOOKBACK_MINUTES * 60
      · simp only [hlb, if_true, reduceIte] at hf
        exact absurd hf (by simp)
      · simp only [hlb, if_false, reduceIte, Option.some.injEq] at hf
        rw [← hf]

/-- Claim C7 (amended): for every correlation group actually produced
and every flattened uptime event surviving normalization (parseable,
nonzero epoch after the falsy field chain), the event is in the group's
matched list exactly when the absolute delta is at most 600 seconds
(the default 10-minute window); the window test itself is the closed
condition `|a-b| ≤ 600`; and the concrete scenario at wall clock 1000
groups the log at epoch 1550 and not the one at 1700. -/
theorem C7_window_boundary :
    (∀ (now : ℤ) (zbx upr : List PyDict) (g : Group),
      g ∈ correlate now zbx upr →
      ∀ e : UpEvent, e ∈ g.matched_uptime ↔
        (e ∈ upEventsOf upr ∧ |g.zabbix_ts - e.ts| ≤ 600)) ∧
    (∀ a b : ℤ, within_window a b = true ↔ |a - b| ≤ 600) ∧
    correlate 1000 [scenZ7] [scenMon7] = [scenGroup7] ∧
    upEv1550.ts = 1550 ∧
    (∀ e ∈ scenGroup7.matched_uptime, e.ts ≠ 1700) := by
  have hww : ∀ a b : ℤ, within_window a b = true ↔ |a - b| ≤ 600 := by
    intro a b
    unfold within_window TIME_WINDOW_SEC TIME_WINDOW_MINUTES
    norm_num
  refine ⟨?_, hww, ?_, rfl, ?_⟩
  · intro now zbx upr g hg e
    rw [correlate_matched_shape hg, List.mem_filter, hww]
  · rfl
  · intro e he
    have : e = upEv1550 := by
      simpa [scenGroup7] using he
    rw [this]
    decide

/-- Counterexample to claim C7 as stated: an uptime log whose timestamp
parses to epoch 0 is parseable and within 600 seconds of an incident at
epoch 500, yet the produced group has an empty matched list, because
`if not ts` treats the parsed 0 as missing. -/
theorem C7_counterexample :
    parse_ts (Val.str "0") = some 0 ∧
    |(500 : ℤ) - 0| ≤ 600 ∧
    correlate 500 [cexZ7] [cexMon7] =
      [{ zabbix := zInfoOf cexZ7, zabbix_ts := 500, matched_uptime := [],
         window_min := TIME_WINDOW_MINUTES }] := by
  refine ⟨rfl, by norm_num, rfl⟩

/-- Witness for claim C7 (amended) at the concrete scenario group and
the epoch-1550 event, discharging the group-membership hypothesis. -/
theorem C7_witness :
    upEv1550 ∈ scenGroup7.matched_uptime ↔
      (upEv1550 ∈ upEventsOf [scenMon7] ∧
        |scenGroup7.zabbix_ts - upEv1550.ts| ≤ 600) := by
  apply C7_window_boundary.1 1000 [scenZ7] [scenMon7] scenGroup7
  rw [C7_window_boundary.2.2.1]
  exact List.mem_singleton_self _

/-! Lemmas about the KB matcher. -/

theorem tokenSet_str (s : String) : tokenSet (.str s) = tokenSetStr s := by
  unfold tokenSet tokenSetStr normalizeText
  rw [show pyOr (Val.str s) (Val.str "") = Val.str s from by
      by_cases h : s = ""
      · subst h; rfl
      · simp [pyOr, truthy, h],
    pyStr_str]

theorem kbFields_pos : ∀ fw ∈ kbFields, (0 : ℚ) < fw.2 := by
  intro fw hfw
  unfold kbFields at hfw
  simp only [List.mem_cons, List.not_mem_nil, or_false] at hfw
  rcases hfw with h | h | h | h | h | h | h <;> (rw [h]; norm_num)

theorem kbFields_ne_nil : kbFields ≠ [] := by
  unfold kbFields
  simp

theorem overlapFold_eq (sol : Finset String) (kb : PyDict) :
    ∀ (fs : List (String × ℚ)) (acc : ℚ × ℚ),
      fs.foldl (overlapStep sol kb) acc =
        (acc.1 + ((fs.filter (fun fw =>
            tokenSet (dgetV kb fw.1) ≠ ∅)).map (fun fw =>
              jaccardScore sol (tokenSet (dgetV kb fw.1)) * fw.2)).sum,
         acc.2 + ((fs.filter (fun fw =>
            tokenSet (dgetV kb fw.1) ≠ ∅)).map Prod.snd).sum) := by
  intro fs
  induction fs with
  | nil => intro acc; simp
  | cons fw fs ih =>
      intro acc
      rw [List.foldl_cons, ih]
      by_cases he : tokenSet (dgetV kb fw.1) = ∅
      · have hstep : overlapStep sol kb acc fw = acc := by
          unfold overlapStep
          rw [if_pos he]
        have hcons : List.filter (fun fw =>
            decide (tokenSet (dgetV kb fw.1) ≠ ∅)) (fw :: fs) =
            List.filter (fun fw =>
              decide (tokenSet (dgetV kb fw.1) ≠ ∅)) fs := by
          rw [List.filter_cons_of_neg]
          simpa using he
        rw [hstep, hcons]
      · have hstep : overlapStep sol kb acc fw =
            (acc.1 + jaccardScore sol (tokenSet (dgetV kb fw.1)) * fw.2,
             acc.2 + fw.2) := by
          unfold overlapStep jaccardScore
          rw [if_neg he]
        have hcons : List.filter (fun fw =>
            decide (tokenSet (dgetV kb fw.1) ≠ ∅)) (fw :: fs) =
            fw :: List.filter (fun fw =>
              decide (tokenSet (dgetV kb fw.1) ≠ ∅)) fs := by
          rw [List.filter_cons_of_pos]
          simpa using he
        rw [hstep, hcons]
        simp only [List.map_cons, List.sum_cons, Prod.mk.injEq]
        constructor <;> ring

theorem overlap_eq_spec (sol : Finset String) (kb : PyDict) :
    weighted_token_overlap sol kb = specKbScore sol kb := by
  unfold weighted_token_overlap specKbScore presentFields
  rw [overlapFold_eq]
  simp only [zero_add]
  by_cases hp : kbFields.filter (fun fw =>
      tokenSet (dgetV kb fw.1) ≠ ∅) = []
  · rw [hp]
    simp
  · have hpos : ∀ x ∈ (kbFields.filter (fun fw =>
        tokenSet (dgetV kb fw.1) ≠ ∅)).map Prod.snd, 0 < x := by
      intro x hx
      rw [List.mem_map] at hx
      obtain ⟨fw, hfw, rfl⟩ := hx
      exact kbFields_pos fw (List.mem_filter.mp hfw).1
    have hne : (kbFields.filter (fun fw =>
        tokenSet (dgetV kb fw.1) ≠ ∅)).map Prod.snd ≠ [] := by
      intro hmap
      exact hp (List.map_eq_nil_iff.mp hmap)
    have hsum : 0 < ((kbFields.filter (fun fw =>
        tokenSet (dgetV kb fw.1) ≠ ∅)).map Prod.snd).sum :=
      List.sum_pos _ hpos hne
    rw [if_pos hsum, if_neg hp]
    have hmaps : (kbFields.filter (fun fw =>
        tokenSet (dgetV kb fw.1) ≠ ∅)).map (fun fw =>
          jaccardScore sol (tokenSet (dgetV kb fw.1)) * fw.2) =
        (kbFields.filter (fun fw =>
          tokenSet (dgetV kb fw.1) ≠ ∅)).map (fun fw =>
            fw.2 * jaccardScore sol (tokenSet (dgetV kb fw.1))) :=
      List.map_congr_left (fun fw _ => by ring)
    rw [hmaps]

theorem overlap_identical {txt : String} {kb : PyDict}
    (hsol : tokenSet (.str txt) ≠ ∅)
    (hfields : ∀ fw ∈ kbFields, dgetV kb fw.1 = .str txt) :
    weighted_token_overlap (tokenSet (.str txt)) kb = 1 := by
  rw [overlap_eq_spec]
  unfold specKbScore
  have hpf : presentFields kb = kbFields := by
    unfold presentFields
    apply List.filter_eq_self.mpr
    intro fw hfw
    rw [hfields fw hfw]
    simpa using hsol
  rw [hpf, if_neg kbFields_ne_nil]
  have hjac : jaccardScore (tokenSet (.str txt)) (tokenSet (.str txt)) = 1 := by
    unfold jaccardScore
    rw [Finset.inter_self, Finset.union_self]
    have hc : 0 < (tokenSet (.str txt)).card :=
      Finset.card_pos.mpr (Finset.nonempty_iff_ne_empty.mpr hsol)
    rw [Nat.max_eq_right hc]
    exact div_self (Nat.cast_ne_zero.mpr (Nat.pos_iff_ne_zero.mp hc))
  have hnum : (kbFields.map (fun fw =>
      fw.2 * jaccardScore (tokenSet (.str txt))
        (tokenSet (dgetV kb fw.1)))).sum =
      (kbFields.map Prod.snd).sum := by
    congr 1
    apply List.map_congr_left
    intro fw hfw
    rw [hfields fw hfw, hjac, mul_one]
  rw [hnum]
  apply div_self
  have hpos : ∀ x ∈ kbFields.map Prod.snd, 0 < x := by
    intro x hx
    rw [List.mem_map] at hx
    obtain ⟨fw, hfw, rfl⟩ := hx
    exact kbFields_pos fw hfw
  have := List.sum_pos _ hpos (by simp [kbFields])
  linarith

theorem overlap_disjoint {sol : Finset String} {kb : PyDict}
    (h : ∀ fw ∈ kbFields, sol ∩ tokenSet (dgetV kb fw.1) = ∅) :
    weighted_token_overlap sol kb = 0 := by
  rw [overlap_eq_spec]
  unfold specKbScore
  by_cases hp : presentFields kb = []
  · rw [if_pos hp]
  · rw [if_neg hp]
    have hnum : ((presentFields kb).map (fun fw =>
        fw.2 * jaccardScore sol (tokenSet (dgetV kb fw.1)))).sum = 0 := by
      apply List.sum_eq_zero
      intro x hx
      rw [List.mem_map] at hx
      obtain ⟨fw, hfw, rfl⟩ := hx
      have hmem : fw ∈ kbFields := (List.mem_filter.mp hfw).1
      unfold jaccardScore
      rw [h fw hmem]
      simp
    rw [hnum, zero_div]

theorem kbStep_le (sol : Finset String) (acc : Option String × ℚ)
    (kb : PyDict) : acc.2 ≤ (kbStep sol acc kb).2 := by
  unfold kbStep
  split_ifs with h1 h2
  · exact le_of_lt h2
  · exact le_rfl
  · exact le_rfl

theorem kbFold_inv (sol : Finset String) :
    ∀ (es : List PyDict) (acc : Option String × ℚ),
      es.foldl (kbStep sol) acc = acc ∨
        ∃ kb ∈ es, truthy (kbIdVal kb) = true ∧
          es.foldl (kbStep sol) acc =
            (some (pyStr (kbIdVal kb)), weighted_token_overlap sol kb) ∧
          acc.2 < weighted_token_overlap sol kb := by
  intro es
  induction es with
  | nil => intro acc; left; rfl
  | cons kb es ih =>
      intro acc
      rw [List.foldl_cons]
      rcases ih (kbStep sol acc kb) with h | ⟨kb', hmem, ht, hr, hlt⟩
      · rw [h]
        unfold kbStep
        by_cases h1 : truthy (kbIdVal kb) = true
        · rw [if_pos h1]
          by_cases h2 : acc.2 < weighted_token_overlap sol kb
          · right
            exact ⟨kb, List.mem_cons_self _ _, h1, by rw [if_pos h2], h2⟩
          · left
            rw [if_neg h2]
        · left
          rw [if_neg h1]
      · right
        refine ⟨kb', List.mem_cons_of_mem _ hmem, ht, hr, ?_⟩
        exact lt_of_le_of_lt (kbStep_le sol acc kb) hlt

theorem pick_provenance {txt : String} {es : List PyDict} {ms : ℚ}
    {i : String} (h : (pick_best_kb_match txt es ms).id = some i) :
    ∃ kb ∈ es, truthy (kbIdVal kb) = true ∧ pyStr (kbIdVal kb) = i ∧
      0 < weighted_token_overlap (tokenSet (.str txt)) kb ∧
      ms ≤ weighted_token_overlap (tokenSet (.str txt)) kb := by
  unfold pick_best_kb_match at h
  by_cases hsol : tokenSet (.str txt) = ∅
  · rw [if_pos hsol] at h
    exact absurd h (by simp)
  · rw [if_neg hsol] at h
    by_cases hms : (kbFold (tokenSet (.str txt)) es).2 < ms
    · rw [if_pos hms] at h
      exact absurd h (by simp)
    · rw [if_neg hms] at h
      simp only at h
      rcases kbFold_inv (tokenSet (.str txt)) es (none, 0) with hinv |
        ⟨kb, hmem, ht, hr, hlt⟩
      · unfold kbFold at h
        rw [hinv] at h
        exact absurd h (by simp)
      · unfold kbFold at h hms
        rw [hr] at h hms
        simp only at h hms
        exact ⟨kb, hmem, ht, Option.some.inj h, hlt, le_of_not_lt hms⟩

theorem pick_append_no_better (txt : String) (es : List PyDict)
    (kb : PyDict) (ms : ℚ)
    (h : weighted_token_overlap (tokenSet (.str txt)) kb ≤
      (kbFold (tokenSet (.str txt)) es).2) :
    pick_best_kb_match txt (es ++ [kb]) ms = pick_best_kb_match txt es ms := by
  unfold pick_best_kb_match
  by_cases hsol : tokenSet (.str txt) = ∅
  · rw [if_pos hsol, if_pos hsol]
  · rw [if_neg hsol, if_neg hsol]
    have hfold : kbFold (tokenSet (.str txt)) (es ++ [kb]) =
        kbFold (tokenSet (.str txt)) es := by
      show (es ++ [kb]).foldl (kbStep (tokenSet (Val.str txt))) (none, 0) =
        kbFold (tokenSet (Val.str txt)) es
      rw [List.foldl_append, List.foldl_cons, List.foldl_nil]
      show kbStep (tokenSet (Val.str txt))
        (kbFold (tokenSet (Val.str txt)) es) kb =
        kbFold (tokenSet (Val.str txt)) es
      unfold kbStep
      by_cases ht : truthy (kbIdVal kb) = true
      · rw [if_pos ht, if_neg (not_lt.mpr h)]
      · rw [if_neg ht]
    rw [hfold]

/-- Claim C8: per-entry scores are the weighted per-field Jaccard
overlaps normalized by the weights of the fields effectively present
(nonempty token set); an entry identical in all weighted fields to a
solution text with a nonempty token set scores 1; an entry sharing no
tokens scores 0; any returned match id stems from an entry with a
strictly positive score at least the minimum score (so a zero-scoring
entry is never the match); and an entry whose score does not beat the
running best — ties included — leaves the result unchanged, so ties
resolve to the first entry in input order. -/
theorem C8_kb_matcher :
    (∀ (sol : Finset String) (kb : PyDict),
      weighted_token_overlap sol kb = specKbScore sol kb) ∧
    (∀ (txt : String) (kb : PyDict), tokenSet (.str txt) ≠ ∅ →
      (∀ fw ∈ kbFields, dgetV kb fw.1 = .str txt) →
      weighted_token_overlap (tokenSet (.str txt)) kb = 1) ∧
    (∀ (sol : Finset String) (kb : PyDict),
      (∀ fw ∈ kbFields, sol ∩ tokenSet (dgetV kb fw.1) = ∅) →
      weighted_token_overlap sol kb = 0) ∧
    (∀ (txt : String) (es : List PyDict) (ms : ℚ) (i : String),
      (pick_best_kb_match txt es ms).id = some i →
      ∃ kb ∈ es, truthy (kbIdVal kb) = true ∧ pyStr (kbIdVal kb) = i ∧
        0 < weighted_token_overlap (tokenSet (.str txt)) kb ∧
        ms ≤ weighted_token_overlap (tokenSet (.str txt)) kb) ∧
    (∀ (txt : String) (es : List PyDict) (kb : PyDict) (ms : ℚ),
      weighted_token_overlap (tokenSet (.str txt)) kb ≤
        (kbFold (tokenSet (.str txt)) es).2 →
      pick_best_kb_match txt (es ++ [kb]) ms =
        pick_best_kb_match txt es ms) :=
  ⟨overlap_eq_spec,
   fun _ _ h1 h2 => overlap_identical h1 h2,
   fun _ _ h => overlap_disjoint h,
   fun _ _ _ _ h => pick_provenance h,
   pick_append_no_better⟩

/-- Witness for claim C8: the concrete entry identical to the solution
text `"disk full error"` in every weighted field scores exactly 1, with
the nonempty-token-set and field hypotheses discharged concretely. -/
theorem C8_witness :
    weighted_token_overlap (tokenSet (.str witSolutionText))
      witKbIdentical = 1 := by
  apply C8_kb_matcher.2.1 witSolutionText witKbIdentical
  · rw [tokenSet_str]
    decide
  · intro fw hfw
    unfold kbFields at hfw
    simp only [List.mem_cons, List.not_mem_nil, or_false] at hfw
    rcases hfw with h | h | h | h | h | h | h <;> (rw [h]; rfl)

/-- Claim C9: the enrichment fails soft — whenever a required input or
credential is missing, the host id does not resolve, or no explicit
window is supplied and the event's clock cannot be resolved (including
the falsy clock 0), the function returns a result with an empty metric
list and an explanatory note; the embedded function is total on these
paths, so no exception reaches the caller. -/
theorem C9_enrich_fails_soft :
    ∀ (deps : EnrichDeps) (hostname eventid : String) (ew : Option PyDict),
      (hostname = "" ∨ eventid = "" ∨ deps.zabbix_url = "" ∨
        deps.zabbix_token = "" ∨
        zabbix_hostid_from_hostname deps hostname = none ∨
        zabbix_hostid_from_hostname deps hostname = some "" ∨
        (ew = none ∧ (zabbix_event_clock deps eventid = none ∨
          zabbix_event_clock deps eventid = some 0))) →
      ∃ r : EnrichResult,
        zabbix_enrich_from_hostname_eventid deps hostname eventid ew =
          .ok r ∧ r.metrics = [] ∧ r.note ≠ none := by
  intro deps hostname eventid ew h
  unfold zabbix_enrich_from_hostname_eventid
  by_cases h1 : hostname = "" ∨ eventid = "" ∨ deps.zabbix_url = "" ∨
      deps.zabbix_token = ""
  · rw [if_pos h1]
    exact ⟨_, rfl, rfl, by simp [enrichSoftFail]⟩
  · rw [if_neg h1]
    by_cases h2 : zabbix_hostid_from_hostname deps hostname = none ∨
        zabbix_hostid_from_hostname deps hostname = some ""
    · rw [if_pos h2]
      exact ⟨_, rfl, rfl, by simp [enrichSoftFail]⟩
    · rw [if_neg h2]
      have h3 : ew = none ∧ (zabbix_event_clock deps eventid = none ∨
          zabbix_event_clock deps eventid = some 0) := by
        tauto
      obtain ⟨hew, hc⟩ := h3
      subst hew
      rw [if_neg (by simp [explicitWindowOk])]
      rcases hc with hc | hc
      · rw [hc]
        exact ⟨_, rfl, rfl, by simp [enrichSoftFail]⟩
      · rw [hc]
        exact ⟨_, rfl, rfl, by simp [enrichSoftFail]⟩

/-- Witness for claim C9 with everything missing: empty hostname,
event id and credentials. -/
theorem C9_witness :
    ∃ r : EnrichResult,
      zabbix_enrich_from_hostname_eventid witDeps "" "" none = .ok r ∧
        r.metrics = [] ∧ r.note ≠ none :=
  C9_enrich_fails_soft witDeps "" "" none (Or.inl rfl)

/-- Claim C10: `apply_guardrail` copies the decision only shallowly, so
when the guardrail triggers and the decision's `missing_data` is a list
the caller's dictionary afterwards contains the three appended standard
items in that list (and the collect-missing-data item in a list-valued
`immediate_actions`), while the caller's `root_cause` and `confidence`
bindings are unchanged; the first component of the instrumented
embedding coincides with `apply_guardrail`. -/
theorem C10_guardrail_mutates_caller :
    (∀ (d : PyDict) (m : ConfMeta),
      (apply_guardrail_mut d m).1 = apply_guardrail d m) ∧
    (∀ (d : PyDict) (m : ConfMeta) (xs : List Val),
      guardrailOn m = true → dgetV d "missing_data" = Val.list xs →
      dgetV (apply_guardrail_mut d m).2 "missing_data" =
        Val.list (appendNew xs neededItems) ∧
      (∀ n ∈ neededItems,
        pyElem (.str n) (appendNew xs neededItems) = true) ∧
      dget (apply_guardrail_mut d m).2 "root_cause" =
        dget d "root_cause" ∧
      dget (apply_guardrail_mut d m).2 "confidence" =
        dget d "confidence") ∧
    (∀ (d : PyDict) (m : ConfMeta) (ys : List Val),
      guardrailOn m = true → dgetV d "immediate_actions" = Val.list ys →
      dgetV (apply_guardrail_mut d m).2 "immediate_actions" =
        Val.list (immAppended ys) ∧
      pyElem (.str extraAction) (immAppended ys) = true) := by
  refine ⟨fun d m => rfl, ?_, ?_⟩
  · intro d m xs hg hmd
    have h2 : decisionAfterGuardrail d m =
        decIaStep (dset d "missing_data"
          (.list (appendNew xs neededItems))) (dgetV d "immediate_actions") := by
      unfold decisionAfterGuardrail
      rw [if_pos hg, dgetV_preSteps_md, hmd, dgetV_preSteps_ia]
      rfl
    have hsnd : (apply_guardrail_mut d m).2 = decisionAfterGuardrail d m := rfl
    refine ⟨?_, fun n hn => pyElem_appendNew_of_mem xs hn, ?_, ?_⟩
    · rw [hsnd, h2]
      cases hia : dgetV d "immediate_actions" <;>
        simp only [decIaStep] <;> unfold dgetV <;>
        first
        | (rw [dget_dset_ne _ _ (by decide), dget_dset_self]; rfl)
        | (rw [dget_dset_self]; rfl)
    · rw [hsnd, h2]
      cases hia : dgetV d "immediate_actions" <;>
        simp only [decIaStep] <;>
        first
        | rw [dget_dset_ne _ _ (by decide), dget_dset_ne _ _ (by decide)]
        | rw [dget_dset_ne _ _ (by decide)]
    · rw [hsnd, h2]
      cases hia : dgetV d "immediate_actions" <;>
        simp only [decIaStep] <;>
        first
        | rw [dget_dset_ne _ _ (by decide), dget_dset_ne _ _ (by decide)]
        | rw [dget_dset_ne _ _ (by decide)]
  · intro d m ys hg hia
    have h2 : decisionAfterGuardrail d m =
        decIaStep (decMdStep d (dgetV d "missing_data")) (.list ys) := by
      unfold decisionAfterGuardrail
      rw [if_pos hg, dgetV_preSteps_md, dgetV_preSteps_ia, hia]
    have hsnd : (apply_guardrail_mut d m).2 = decisionAfterGuardrail d m := rfl
    refine ⟨?_, immAppended_elem ys⟩
    rw [hsnd, h2]
    simp only [decIaStep]
    unfold dgetV
    rw [dget_dset_self]
    rfl

/-- Witness for claim C10 at a concrete decision with list-valued
fields and the engaged concrete metrics, hypotheses discharged. -/
theorem C10_witness :
    dgetV (apply_guardrail_mut cexDecisionC10
      (calibrate_confidence scenDecisionC1 [] [])).2 "missing_data" =
      Val.list (appendNew [] neededItems) ∧
    (∀ n ∈ neededItems,
      pyElem (.str n) (appendNew [] neededItems) = true) ∧
    dget (apply_guardrail_mut cexDecisionC10
      (calibrate_confidence scenDecisionC1 [] [])).2 "root_cause" =
      dget cexDecisionC10 "root_cause" ∧
    dget (apply_guardrail_mut cexDecisionC10
      (calibrate_confidence scenDecisionC1 [] [])).2 "confidence" =
      dget cexDecisionC10 "confidence" :=
  C10_guardrail_mutates_caller.2.1 cexDecisionC10
    (calibrate_confidence scenDecisionC1 [] []) [] scen_guardrailOn rfl

end RCA
